import Mathlib

/-!
Verification development for the tenboard repository: a shallow embedding of
the chord model (`src/keyboard/hands.rs`), the typing protocol
(`src/keyboard.rs`), the layout implementations
(`src/keyboard/layout/tenboard.rs`, `src/keyboard/layout/asetniop.rs`,
`src/layout/tenboard.rs`) and the metric engine (`src/keyboard/metrics.rs`),
together with theorems settling the frozen claims about them.

Rust arrays `[FingerState; 10]` are embedded as `List FingerState`; every
chord constructed by the code has length 10, and theorems carry that length
where they need it.  Rust `u32` counters are embedded as `Nat` reduced
modulo `2 ^ 32` at each addition.  Rust `HashMap` built with `from_iter` /
`from` is embedded as an association list where a later binding for the
same key shadows an earlier one (`hmGet` looks the reversed list up), which
matches `HashMap` insertion semantics.  The `shuffle` of a list performed by
layout constructors with `rand::thread_rng` is embedded by quantifying over
every permutation of the collected list, and `gen_bool(0.5)` by quantifying
over a `Bool`.
-/

/-- Rust `FingerState` from `src/keyboard/hands.rs`: a finger is pressed or
released. -/
inductive FingerState where
  | Pressed : FingerState
  | Released : FingerState
deriving DecidableEq, Repr

/-- Rust `impl From<bool> for FingerState`. -/
def FingerState.fromBool (value : Bool) : FingerState :=
  match value with
  | true => FingerState.Pressed
  | false => FingerState.Released

/-- Rust `impl From<i32> for FingerState`: any positive value is `Pressed`. -/
def FingerState.fromI32 (value : Int) : FingerState :=
  FingerState.fromBool (decide (0 < value))

/-- Rust `impl From<FingerState> for u32`. -/
def FingerState.toU32 (value : FingerState) : Nat :=
  match value with
  | FingerState.Pressed => 1
  | FingerState.Released => 0

/-- Rust `HandsState` from `src/keyboard/hands.rs`: ten finger states, indices
0-4 the left hand and 5-9 the right hand (thumbs at indices 4 and 5). The
Rust type is the fixed-size array `[FingerState; 10]`; we embed it as a
list, every chord built by the code having length 10. -/
abbrev HandsState := List FingerState

/-- Rust `impl From<[i32; 10]> for HandsState`, on the list embedding of the
array. -/
def HandsState.fromI32 (value : List Int) : HandsState :=
  value.map FingerState.fromI32

/-- Rust `HandsState::left_thumb`. -/
def HandsState.left_thumb : HandsState :=
  HandsState.fromI32 [0, 0, 0, 0, 1, 0, 0, 0, 0, 0]

/-- Rust `HandsState::right_thumb`. -/
def HandsState.right_thumb : HandsState :=
  HandsState.fromI32 [0, 0, 0, 0, 0, 1, 0, 0, 0, 0]

/-- The zipped-mutation pattern `a.iter_mut().zip(b.iter()).for_each(...)`
used by `HandsState::combine` and the metric updates: positions beyond
`b.length` keep their value from `a`. -/
def zipWithTail (f : α → β → α) (a : List α) (b : List β) : List α :=
  List.zipWith f a b ++ a.drop b.length

/-- Rust `HandsState::combine`: a new chord whose finger is `Pressed` whenever
the corresponding finger of `self` or of `other` is. -/
def HandsState.combine (a other : HandsState) : HandsState :=
  zipWithTail
    (fun s o => if o = FingerState.Pressed then FingerState.Pressed else s)
    a other

/-- Rust `HandsState::count_pressed`. -/
def HandsState.count_pressed (a : HandsState) : Nat :=
  (a.filter (fun fs => fs = FingerState.Pressed)).length

/-- Rust `slice::chunks(5)` as used by `HandsState::hand_iter`: splits the ten
finger states into the left-hand five and the right-hand five (a final
shorter chunk if the list is shorter than a multiple of five). -/
def handChunks : List FingerState → List (List FingerState)
  | [] => []
  | a :: b :: c :: d :: e :: rest => [a, b, c, d, e] :: handChunks rest
  | l => [l]

/-- Rust `HandsState::iterate_one_key_no_thumbs`: the eight single-finger chords
avoiding the two thumb indices 4 and 5. -/
def HandsState.iterate_one_key_no_thumbs : List HandsState :=
  (List.range 4 ++ List.range' 6 4).map (fun i =>
    HandsState.fromI32 ((List.range 10).map (fun k => if k = i then 1 else 0)))

/-- Rust `HandsState::iterate_two_key_no_thumbs`: the 28 two-finger chords among
the eight non-thumb fingers; the inner 8-slot array `[a,b,c,d,e,f,g,h]` is
widened to `[a,b,c,d,0,0,e,f,g,h]`. -/
def HandsState.iterate_two_key_no_thumbs : List HandsState :=
  (List.range 7).flatMap (fun i =>
    (((List.range' i (8 - i)).filterMap (fun j =>
        if i ≠ j then
          some ((List.range 8).map (fun k => if k = i ∨ k = j then (1 : Int) else 0))
        else none)).map
      (fun a => HandsState.fromI32 (a.take 4 ++ [0, 0] ++ a.drop 4))))

/-- Rust `HandsState::iterate_one_two_key_no_thumbs`. -/
def HandsState.iterate_one_two_key_no_thumbs : List HandsState :=
  HandsState.iterate_one_key_no_thumbs ++ HandsState.iterate_two_key_no_thumbs

/-- Rust `HandsState::iterate_one_two_key_with_thumbs`. -/
def HandsState.iterate_one_two_key_with_thumbs : List HandsState :=
  HandsState.iterate_one_two_key_no_thumbs
    ++ (HandsState.iterate_one_two_key_no_thumbs.map
        (fun hs => HandsState.combine hs HandsState.left_thumb))
    ++ (HandsState.iterate_one_two_key_no_thumbs.map
        (fun hs => HandsState.combine hs HandsState.right_thumb))

/-- Rust `HandsState::iterate_one_two_key_all_states`. -/
def HandsState.iterate_one_two_key_all_states : List HandsState :=
  HandsState.iterate_one_two_key_with_thumbs
    ++ [HandsState.left_thumb, HandsState.right_thumb]

/-- Rust `LOWERCASE_CHARS` from `src/keyboard.rs`. -/
def LOWERCASE_CHARS : String := "abcdefghijklmnopqrstuvwxyz"

/-- Rust `UPPERCASE_CHARS` from `src/keyboard.rs`. -/
def UPPERCASE_CHARS : String := "ABCDEFGHIJKLMNOPQRSTUVWXYZ"

/-- Rust `DIGIT_CHARS` from `src/keyboard.rs` (note the duplicated final 0,
exactly as in the source). -/
def DIGIT_CHARS : String := "01234567890"

/-- Rust `PUNCTUATION_CHARS` from `src/keyboard.rs` (brace, quote and apostrophe
characters written with hexadecimal escapes). -/
def PUNCTUATION_CHARS : String :=
  "\x60-=[]\\;\x27,./~!@#$%^&*()_+\x7b\x7d|:\x22<>? \t\n"

/-- Rust `TYPABLE_CHARS` from `src/keyboard.rs`. -/
def TYPABLE_CHARS : String :=
  "abcdefghijklmnopqrstuvwxyzABCDEFGHIJKLMNOPQRSTUVWXYZ\x601234567890-=[]\\;\x27,./~!@#$%^&*()_+\x7b\x7d|:\x22<>? \t\n"

/-- Rust `NoSuchChar` from `src/keyboard.rs`: the single error kind, carrying the
character that could not be typed. -/
structure NoSuchChar where
  ch : Char
deriving DecidableEq, Repr

/-- Rust `Option::ok_or` specialised as the Rust code uses it: a present value
becomes `Ok`, an absent one the given error. -/
def okOr (o : Option HandsState) (e : NoSuchChar) : Except NoSuchChar HandsState :=
  match o with
  | some v => Except.ok v
  | none => Except.error e

/-- First-match lookup in an association list (the recursion `HashMap::get`
is compared against; see `hmGet`). -/
def assocGet : List (Char × HandsState) → Char → Option HandsState
  | [], _ => none
  | (k, v) :: rest, c => if c = k then some v else assocGet rest c

/-- Rust `HashMap::get` on a map built from a sequence of insertions: the last
binding of a key wins, so the reversed list is searched first-match. -/
def hmGet (pairs : List (Char × HandsState)) (c : Char) : Option HandsState :=
  assocGet pairs.reverse c

/-- Rust `TenboardUnconstrained` from `src/keyboard/layout/tenboard.rs`. -/
structure TenboardUnconstrained where
  layout : List (Char × HandsState)

/-- Rust `TenboardUnconstrained::new_random`: `TYPABLE_CHARS` zipped with a
shuffle of the all-states chord space.  The shuffled vector is passed in;
theorems quantify over every permutation of the collected list. -/
def TenboardUnconstrained.new_random (handsstates : List HandsState) :
    TenboardUnconstrained :=
  { layout := TYPABLE_CHARS.toList.zip handsstates }

/-- Rust `TenboardUnconstrained::try_type_char`. -/
def TenboardUnconstrained.try_type_char (tb : TenboardUnconstrained)
    (ch : Char) : Except NoSuchChar HandsState :=
  okOr (hmGet tb.layout ch) { ch := ch }

/-- Rust `TenboardThumbConstrained` from `src/keyboard/layout/tenboard.rs`. -/
structure TenboardThumbConstrained where
  whitespace_hs : HandsState
  newline_hs : HandsState
  layout : List (Char × HandsState)

/-- The `gen_bool(0.5)` choice of which thumb is whitespace and which is
newline, shared by both constrained constructors. -/
def thumbPair (flip : Bool) : HandsState × HandsState :=
  if flip then (HandsState.left_thumb, HandsState.right_thumb)
  else (HandsState.right_thumb, HandsState.left_thumb)

/-- Rust `TenboardThumbConstrained::new_random`: thumbs reserved for space and
newline, the remaining typable characters zipped with a shuffle of the
with-thumbs chord space. -/
def TenboardThumbConstrained.new_random (flip : Bool)
    (handsstates : List HandsState) : TenboardThumbConstrained :=
  { whitespace_hs := (thumbPair flip).1
    newline_hs := (thumbPair flip).2
    layout :=
      (TYPABLE_CHARS.toList.filter
        (fun ch => ch ≠ ' ' && ch ≠ '\n')).zip handsstates }

/-- Rust `TenboardThumbConstrained::try_type_char` (the `match` on the character
written as the equivalent cascade of equality tests). -/
def TenboardThumbConstrained.try_type_char (tb : TenboardThumbConstrained)
    (ch : Char) : Except NoSuchChar HandsState :=
  if ch = ' ' then Except.ok tb.whitespace_hs
  else if ch = '\n' then Except.ok tb.newline_hs
  else okOr (hmGet tb.layout ch) { ch := ch }

/-- Rust `char::is_lowercase`.  The Unicode predicate restricted to the
ASCII characters this development evaluates it at, where it coincides with
the ASCII range test. -/
def charIsLowercase (c : Char) : Bool := 'a' ≤ c && c ≤ 'z'

/-- Rust `char::is_uppercase`, restricted as `charIsLowercase` is. -/
def charIsUppercase (c : Char) : Bool := 'A' ≤ c && c ≤ 'Z'

/-- Rust `char::is_ascii_digit`. -/
def charIsAsciiDigit (c : Char) : Bool := '0' ≤ c && c ≤ '9'

/-- Rust `char::to_ascii_lowercase`: adds 32 to an ASCII uppercase letter,
leaves anything else unchanged. -/
def toAsciiLowercase (c : Char) : Char :=
  if charIsUppercase c then Char.ofNat (c.toNat + 32) else c

/-- Rust `TenboardModifierConstrained` from `src/keyboard/layout/tenboard.rs`. -/
structure TenboardModifierConstrained where
  whitespace_hs : HandsState
  newline_hs : HandsState
  lowercase_digit_layout : List (Char × HandsState)
  punctuation_layout : List (Char × HandsState)

/-- Rust `TenboardModifierConstrained::new_random`: thumbs for space/newline,
lowercase letters and digits zipped with a shuffle of the no-thumbs space,
punctuation zipped with a shuffle of the no-thumbs space combined with the
newline thumb.  The two shuffled vectors are passed in. -/
def TenboardModifierConstrained.new_random (flip : Bool)
    (lowercase_digit_hs punctuation_hs : List HandsState) :
    TenboardModifierConstrained :=
  { whitespace_hs := (thumbPair flip).1
    newline_hs := (thumbPair flip).2
    lowercase_digit_layout :=
      (LOWERCASE_CHARS.toList ++ DIGIT_CHARS.toList).zip lowercase_digit_hs
    punctuation_layout :=
      (PUNCTUATION_CHARS.toList.filter
        (fun ch => ch ≠ ' ' && ch ≠ '\n')).zip punctuation_hs }

/-- Rust `TenboardModifierConstrained::try_type_char` (the guarded `match`
written as the equivalent cascade of tests producing an `Option`, then
`ok_or`). -/
def TenboardModifierConstrained.try_type_char
    (tb : TenboardModifierConstrained) (ch : Char) :
    Except NoSuchChar HandsState :=
  okOr
    (if ch = ' ' then some tb.whitespace_hs
     else if ch = '\n' then some tb.newline_hs
     else if charIsLowercase ch || charIsAsciiDigit ch then
       hmGet tb.lowercase_digit_layout ch
     else if charIsUppercase ch then
       Option.map (fun hs => HandsState.combine hs tb.whitespace_hs)
         (hmGet tb.lowercase_digit_layout (toAsciiLowercase ch))
     else hmGet tb.punctuation_layout ch)
    { ch := ch }

/-- The blanket `impl<T: Tenboard> Keyboard for T` of
`src/keyboard/layout/tenboard.rs`:
`chars.map(|ch| self.try_type_char(ch)).collect()`, where collecting
iterator items into a `Result` stops at the first error. -/
def collectTyped (f : Char → Except NoSuchChar HandsState) :
    List Char → Except NoSuchChar (List HandsState)
  | [] => Except.ok []
  | ch :: rest =>
    match f ch with
    | Except.error e => Except.error e
    | Except.ok hs => Except.map (fun l => hs :: l) (collectTyped f rest)

/-- Rust `SWITCH_COMBINATION` from `src/keyboard/layout/asetniop.rs`: left pinky
together with right pinky. -/
def SWITCH_COMBINATION : HandsState :=
  [FingerState.Pressed, FingerState.Released, FingerState.Released,
   FingerState.Released, FingerState.Released, FingerState.Released,
   FingerState.Released, FingerState.Released, FingerState.Released,
   FingerState.Pressed]

/-- Rust `LETTERS_LAYOUT` from `src/keyboard/layout/asetniop.rs`, in source
order (`HashMap::from` keeps the last binding of a duplicated key, which
`hmGet` reproduces). -/
def LETTERS_LAYOUT : List (Char × HandsState) :=
  [('a', HandsState.fromI32 [1, 0, 0, 0, 0, 0, 0, 0, 0, 0]),
   ('b', HandsState.fromI32 [0, 0, 0, 1, 0, 0, 1, 0, 0, 0]),
   ('c', HandsState.fromI32 [0, 1, 0, 1, 0, 0, 0, 0, 0, 0]),
   ('d', HandsState.fromI32 [0, 1, 1, 0, 0, 0, 0, 0, 0, 0]),
   ('e', HandsState.fromI32 [0, 0, 1, 0, 0, 0, 0, 0, 0, 0]),
   ('f', HandsState.fromI32 [1, 0, 0, 1, 0, 0, 0, 0, 0, 0]),
   ('g', HandsState.fromI32 [0, 0, 0, 1, 0, 0, 0, 0, 1, 0]),
   ('h', HandsState.fromI32 [0, 0, 0, 0, 0, 0, 1, 1, 0, 0]),
   ('i', HandsState.fromI32 [0, 0, 0, 0, 0, 0, 0, 1, 0, 0]),
   ('j', HandsState.fromI32 [0, 1, 0, 0, 0, 0, 1, 0, 0, 0]),
   ('k', HandsState.fromI32 [0, 1, 0, 0, 0, 0, 0, 1, 0, 0]),
   ('l', HandsState.fromI32 [0, 0, 0, 0, 0, 0, 0, 1, 1, 0]),
   ('m', HandsState.fromI32 [0, 0, 0, 0, 0, 0, 1, 0, 0, 1]),
   ('n', HandsState.fromI32 [0, 0, 0, 0, 0, 0, 1, 0, 0, 0]),
   ('o', HandsState.fromI32 [0, 0, 0, 0, 0, 0, 0, 0, 1, 0]),
   ('p', HandsState.fromI32 [0, 0, 0, 0, 0, 0, 0, 0, 0, 1]),
   ('q', HandsState.fromI32 [1, 0, 0, 0, 0, 0, 1, 0, 0, 0]),
   ('r', HandsState.fromI32 [0, 0, 1, 1, 0, 0, 0, 0, 0, 0]),
   ('s', HandsState.fromI32 [0, 1, 0, 0, 0, 0, 0, 0, 0, 0]),
   ('t', HandsState.fromI32 [0, 0, 0, 1, 0, 0, 0, 0, 0, 0]),
   ('u', HandsState.fromI32 [0, 0, 0, 0, 0, 0, 1, 0, 1, 0]),
   ('v', HandsState.fromI32 [0, 0, 0, 1, 0, 0, 0, 1, 0, 0]),
   ('w', HandsState.fromI32 [1, 1, 0, 0, 0, 0, 0, 0, 0, 0]),
   ('x', HandsState.fromI32 [1, 0, 1, 0, 0, 0, 0, 0, 0, 0]),
   ('y', HandsState.fromI32 [0, 0, 1, 0, 0, 0, 1, 0, 0, 0]),
   ('z', HandsState.fromI32 [1, 0, 0, 0, 0, 0, 0, 1, 0, 0]),
   ('A', HandsState.fromI32 [1, 0, 0, 0, 1, 0, 0, 0, 0, 0]),
   ('B', HandsState.fromI32 [0, 0, 0, 1, 1, 0, 1, 0, 0, 0]),
   ('C', HandsState.fromI32 [0, 1, 0, 1, 1, 0, 0, 0, 0, 0]),
   ('D', HandsState.fromI32 [0, 1, 1, 0, 1, 0, 0, 0, 0, 0]),
   ('E', HandsState.fromI32 [0, 0, 1, 0, 1, 0, 0, 0, 0, 0]),
   ('F', HandsState.fromI32 [1, 0, 0, 1, 1, 0, 0, 0, 0, 0]),
   ('G', HandsState.fromI32 [0, 0, 0, 1, 1, 0, 0, 0, 1, 0]),
   ('H', HandsState.fromI32 [0, 0, 0, 0, 1, 0, 1, 1, 0, 0]),
   ('I', HandsState.fromI32 [0, 0, 0, 0, 1, 0, 0, 1, 0, 0]),
   ('J', HandsState.fromI32 [0, 1, 0, 0, 1, 0, 1, 0, 0, 0]),
   ('K', HandsState.fromI32 [0, 1, 0, 0, 1, 0, 0, 1, 0, 0]),
   ('L', HandsState.fromI32 [0, 0, 0, 0, 1, 0, 0, 1, 1, 0]),
   ('M', HandsState.fromI32 [0, 0, 0, 0, 1, 0, 1, 0, 0, 1]),
   ('N', HandsState.fromI32 [0, 0, 0, 0, 1, 0, 1, 0, 0, 0]),
   ('O', HandsState.fromI32 [0, 0, 0, 0, 1, 0, 0, 0, 1, 0]),
   ('P', HandsState.fromI32 [0, 0, 0, 0, 1, 0, 0, 0, 0, 1]),
   ('Q', HandsState.fromI32 [1, 0, 0, 0, 1, 0, 1, 0, 0, 0]),
   ('R', HandsState.fromI32 [0, 0, 1, 1, 1, 0, 0, 0, 0, 0]),
   ('S', HandsState.fromI32 [0, 1, 0, 0, 1, 0, 0, 0, 0, 0]),
   ('T', HandsState.fromI32 [0, 0, 0, 1, 1, 0, 0, 0, 0, 0]),
   ('U', HandsState.fromI32 [0, 0, 0, 0, 1, 0, 1, 0, 1, 0]),
   ('V', HandsState.fromI32 [0, 0, 0, 1, 1, 0, 0, 1, 0, 0]),
   ('W', HandsState.fromI32 [1, 1, 0, 0, 1, 0, 0, 0, 0, 0]),
   ('X', HandsState.fromI32 [1, 0, 1, 0, 1, 0, 0, 0, 0, 0]),
   ('Y', HandsState.fromI32 [0, 0, 1, 0, 1, 0, 1, 0, 0, 0]),
   ('Z', HandsState.fromI32 [1, 0, 0, 0, 1, 0, 0, 1, 0, 0]),
   ('!', HandsState.fromI32 [0, 0, 0, 0, 0, 0, 0, 1, 0, 1]),
   ('\x27', HandsState.fromI32 [0, 0, 1, 0, 0, 0, 0, 0, 0, 1]),
   (';', HandsState.fromI32 [0, 0, 0, 0, 0, 0, 0, 0, 1, 1]),
   (',', HandsState.fromI32 [0, 0, 1, 0, 0, 0, 0, 1, 0, 0]),
   ('.', HandsState.fromI32 [0, 1, 0, 0, 0, 0, 0, 0, 1, 0]),
   ('?', HandsState.fromI32 [1, 0, 0, 0, 0, 0, 0, 0, 0, 1]),
   ('(', HandsState.fromI32 [1, 0, 0, 0, 0, 0, 0, 0, 1, 0]),
   (')', HandsState.fromI32 [0, 1, 0, 0, 0, 0, 0, 0, 0, 1]),
   ('-', HandsState.fromI32 [0, 0, 1, 0, 0, 0, 0, 0, 1, 0]),
   ('\t', HandsState.fromI32 [1, 1, 1, 1, 0, 0, 0, 0, 0, 0]),
   ('\n', HandsState.fromI32 [0, 0, 0, 0, 0, 0, 1, 1, 1, 1]),
   ('@', HandsState.fromI32 [0, 0, 0, 0, 1, 0, 0, 1, 0, 1]),
   ('\x22', HandsState.fromI32 [0, 0, 1, 0, 1, 0, 0, 0, 0, 1]),
   (':', HandsState.fromI32 [0, 0, 0, 0, 1, 0, 0, 0, 1, 1]),
   ('<', HandsState.fromI32 [0, 0, 1, 0, 1, 0, 0, 1, 0, 0]),
   ('>', HandsState.fromI32 [0, 1, 0, 0, 1, 0, 0, 0, 1, 0]),
   ('/', HandsState.fromI32 [1, 0, 0, 0, 1, 0, 0, 0, 0, 1]),
   ('[', HandsState.fromI32 [1, 0, 0, 0, 1, 0, 0, 0, 1, 0]),
   (']', HandsState.fromI32 [0, 1, 0, 0, 1, 0, 0, 0, 0, 1]),
   ('_', HandsState.fromI32 [0, 0, 1, 0, 1, 0, 0, 0, 1, 0])]

/-- Rust `SYMBOLS_LAYOUT` from `src/keyboard/layout/asetniop.rs`, in source
order; the key `!` appears twice and the later binding wins. -/
def SYMBOLS_LAYOUT : List (Char × HandsState) :=
  [('1', HandsState.fromI32 [1, 0, 0, 0, 0, 0, 0, 0, 0, 0]),
   ('\x60', HandsState.fromI32 [1, 0, 1, 0, 0, 0, 0, 0, 0, 0]),
   ('[', HandsState.fromI32 [1, 0, 0, 1, 0, 0, 0, 0, 0, 0]),
   ('!', HandsState.fromI32 [1, 0, 0, 0, 0, 0, 0, 1, 0, 0]),
   ('(', HandsState.fromI32 [1, 0, 0, 0, 0, 0, 0, 0, 1, 0]),
   ('?', HandsState.fromI32 [1, 0, 0, 0, 0, 0, 0, 0, 0, 1]),
   ('2', HandsState.fromI32 [0, 1, 0, 0, 0, 0, 0, 0, 0, 0]),
   ('-', HandsState.fromI32 [0, 1, 1, 0, 0, 0, 0, 0, 0, 0]),
   ('=', HandsState.fromI32 [0, 1, 0, 0, 0, 0, 0, 1, 0, 0]),
   ('.', HandsState.fromI32 [0, 1, 0, 0, 0, 0, 0, 0, 1, 0]),
   (')', HandsState.fromI32 [0, 1, 0, 0, 0, 0, 0, 0, 0, 1]),
   ('3', HandsState.fromI32 [0, 0, 1, 0, 0, 0, 0, 0, 0, 0]),
   (',', HandsState.fromI32 [0, 0, 1, 0, 0, 0, 0, 0, 1, 0]),
   ('\x27', HandsState.fromI32 [0, 0, 1, 0, 0, 0, 0, 0, 0, 1]),
   ('4', HandsState.fromI32 [0, 0, 0, 1, 0, 0, 0, 0, 0, 0]),
   ('5', HandsState.fromI32 [0, 0, 1, 1, 0, 0, 0, 0, 0, 0]),
   ('6', HandsState.fromI32 [0, 0, 0, 0, 0, 0, 1, 1, 0, 0]),
   ('7', HandsState.fromI32 [0, 0, 0, 0, 0, 0, 1, 0, 0, 0]),
   (']', HandsState.fromI32 [0, 0, 0, 0, 0, 0, 1, 0, 0, 1]),
   ('8', HandsState.fromI32 [0, 0, 0, 0, 0, 0, 0, 1, 0, 0]),
   ('9', HandsState.fromI32 [0, 0, 0, 0, 0, 0, 0, 0, 1, 0]),
   (';', HandsState.fromI32 [0, 0, 0, 0, 0, 0, 0, 0, 1, 1]),
   ('~', HandsState.fromI32 [1, 0, 1, 0, 1, 0, 0, 0, 0, 0]),
   ('\x7b', HandsState.fromI32 [1, 0, 0, 1, 1, 0, 0, 0, 0, 0]),
   ('!', HandsState.fromI32 [1, 0, 0, 0, 1, 0, 0, 1, 0, 0]),
   ('/', HandsState.fromI32 [1, 0, 0, 0, 1, 0, 0, 0, 0, 1]),
   ('@', HandsState.fromI32 [0, 1, 0, 0, 1, 0, 0, 0, 0, 0]),
   ('_', HandsState.fromI32 [0, 1, 1, 0, 1, 0, 0, 0, 0, 0]),
   ('+', HandsState.fromI32 [0, 1, 0, 0, 1, 0, 0, 1, 0, 0]),
   ('>', HandsState.fromI32 [0, 1, 0, 0, 1, 0, 0, 0, 1, 0]),
   ('#', HandsState.fromI32 [0, 0, 1, 0, 1, 0, 0, 0, 0, 0]),
   ('%', HandsState.fromI32 [0, 0, 1, 1, 1, 0, 0, 0, 0, 0]),
   ('<', HandsState.fromI32 [0, 0, 1, 0, 1, 0, 0, 1, 0, 0]),
   ('$', HandsState.fromI32 [0, 0, 0, 1, 1, 0, 0, 0, 0, 0]),
   ('&', HandsState.fromI32 [0, 0, 0, 0, 1, 0, 1, 0, 0, 0]),
   ('^', HandsState.fromI32 [0, 0, 0, 0, 1, 0, 1, 1, 0, 0]),
   ('\x7d', HandsState.fromI32 [0, 0, 0, 0, 1, 0, 1, 0, 0, 1]),
   ('*', HandsState.fromI32 [0, 0, 0, 0, 1, 0, 0, 1, 0, 0]),
   (':', HandsState.fromI32 [0, 0, 0, 0, 1, 0, 0, 0, 1, 1])]

/-- The `Layout` enum of `src/keyboard/layout/asetniop.rs`: which of the
two static tables is current. -/
inductive Layout where
  | Letters : Layout
  | Symbols : Layout
deriving DecidableEq, Repr

/-- The table carried by a `Layout` variant. -/
def Layout.table : Layout → List (Char × HandsState)
  | Layout.Letters => LETTERS_LAYOUT
  | Layout.Symbols => SYMBOLS_LAYOUT

/-- Rust `Layout::swap`. -/
def Layout.swap : Layout → Layout
  | Layout.Letters => Layout.Symbols
  | Layout.Symbols => Layout.Letters

/-- The character lookup `match self.layout { ... l.get(&ch) }` inside
`Asetniop::try_type_chars`. -/
def layoutGet (l : Layout) (ch : Char) : Option HandsState :=
  hmGet l.table ch

/-- The loop body of `Asetniop::try_type_chars`, with the growing `Vec` of
emitted chords made explicit: look the character up in the current table
(appending its chord when found), swap the layer, look it up in the new
table, and either append the switch chord plus the found chord or abort
with `NoSuchChar`, discarding everything accumulated. -/
def asetniopLoop (layout : Layout) (handstates : List HandsState) :
    List Char → Except NoSuchChar (List HandsState)
  | [] => Except.ok handstates
  | ch :: rest =>
    let handstates1 :=
      match layoutGet layout ch with
      | some hs => handstates ++ [hs]
      | none => handstates
    let layout1 := layout.swap
    match layoutGet layout1 ch with
    | some hs => asetniopLoop layout1 (handstates1 ++ [SWITCH_COMBINATION, hs]) rest
    | none => Except.error { ch := ch }

/-- Rust `Asetniop::try_type_chars` on a fresh `Asetniop` (whose `Default`
layout is `Letters`). -/
def Asetniop.try_type_chars (chars : List Char) :
    Except NoSuchChar (List HandsState) :=
  asetniopLoop Layout.Letters [] chars

namespace LayoutModule

/-- Rust `TenboardUnconstrained` from `src/layout/tenboard.rs` (a distinct type
from the one in `src/keyboard/layout/tenboard.rs`): an arbitrary map passed
to `new`. -/
structure TenboardUnconstrained where
  layout : List (Char × HandsState)

/-- Rust `TenboardUnconstrained::try_type_chars` from `src/layout/tenboard.rs`. -/
def TenboardUnconstrained.try_type_chars (tb : TenboardUnconstrained)
    (chars : List Char) : Except NoSuchChar (List HandsState) :=
  collectTyped (fun ch => okOr (hmGet tb.layout ch) { ch := ch }) chars

/-- Rust `TenboardUnconstrained::type_chars_skip` from `src/layout/tenboard.rs`:
`chars.filter_map(|ch| self.layout.get(&ch).copied()).collect()`. -/
def TenboardUnconstrained.type_chars_skip (tb : TenboardUnconstrained)
    (chars : List Char) : List HandsState :=
  chars.filterMap (fun ch => hmGet tb.layout ch)

end LayoutModule

/-- The `u32` modulus. -/
def U32MOD : Nat := 2 ^ 32

/-- Rust `u32` addition: `Nat` addition reduced modulo `2 ^ 32`. -/
def u32add (a b : Nat) : Nat := (a + b) % U32MOD

/-- Rust `u32` iterator summation (`iter().sum::<u32>()`): left fold of `u32`
addition from 0. -/
def u32sum (l : List Nat) : Nat := l.foldl u32add 0

/-- Rust `FingerUsage` from `src/keyboard/metrics.rs`: ten per-finger `u32`
press counters. -/
structure FingerUsage where
  presses : List Nat

/-- Rust `FingerUsage::new`. -/
def FingerUsage.new : FingerUsage :=
  { presses := List.replicate 10 0 }

/-- Rust `Metric::update_once` for `FingerUsage`: each counter gains the
corresponding finger's 0/1 value. -/
def FingerUsage.update_once (fu : FingerUsage) (handstate : HandsState) :
    FingerUsage :=
  { presses :=
      zipWithTail (fun fc fs => u32add fc fs.toU32) fu.presses handstate }

/-- Rust `Metric::update` for `FingerUsage`: `update_once` over the chords in
order. -/
def FingerUsage.update (fu : FingerUsage) (handstates : List HandsState) :
    FingerUsage :=
  handstates.foldl FingerUsage.update_once fu

/-- Rust `HandUsage` from `src/keyboard/metrics.rs`: two per-hand `u32` press
counters. -/
structure HandUsage where
  presses : List Nat
deriving DecidableEq, Repr

/-- Rust `HandUsage::new`. -/
def HandUsage.new : HandUsage :=
  { presses := List.replicate 2 0 }

/-- Rust `Metric::update_once` for `HandUsage`: each hand's counter gains the
number of pressed fingers in that hand's five-finger chunk. -/
def HandUsage.update_once (hu : HandUsage) (handstate : HandsState) :
    HandUsage :=
  { presses :=
      zipWithTail
        (fun hc chunk => u32add hc (u32sum (chunk.map FingerState.toU32)))
        hu.presses (handChunks handstate) }

/-- Rust `Metric::update` for `HandUsage`. -/
def HandUsage.update (hu : HandUsage) (handstates : List HandsState) :
    HandUsage :=
  handstates.foldl HandUsage.update_once hu

/-- Rust `impl From<FingerUsage> for HandUsage`: split the ten finger counters
at 5 and sum each half. -/
def HandUsage.ofFingerUsage (value : FingerUsage) : HandUsage :=
  { presses := [u32sum (value.presses.take 5), u32sum (value.presses.drop 5)] }

/-- Rust `Metric::score` for `HandUsage`.  In the source the counters are cast
to `f32` and summed; two accumulators with equal counter arrays get equal
scores, which is all the claims state, so the sum is taken over `Nat`. -/
def HandUsage.score (hu : HandUsage) : Nat := hu.presses.sum

/-- The per-character emission described by the specification of the
dual-layer layout: look the character up in the pre-swap layer (its chord,
when present, is emitted first), then in the post-swap layer — when found
there, the switch chord and that table's chord follow; when absent there,
the character is untypeable. -/
def asetniopEmits (layout : Layout) (ch : Char) : Option (List HandsState) :=
  match layoutGet layout.swap ch with
  | none => none
  | some hs =>
    some ((match layoutGet layout ch with
           | some h0 => [h0]
           | none => []) ++ [SWITCH_COMBINATION, hs])

/-- The specification-level run of the dual-layer layout: one
`asetniopEmits` per character, the layer swapping exactly once per
character whether or not the first lookup succeeded, aborting with
`NoSuchChar` at the first untypeable character. -/
def asetniopSpecRun (layout : Layout) :
    List Char → Except NoSuchChar (List HandsState)
  | [] => Except.ok []
  | ch :: rest =>
    match asetniopEmits layout ch with
    | none => Except.error { ch := ch }
    | some out =>
      Except.map (fun l => out ++ l) (asetniopSpecRun layout.swap rest)

/-- Rust `Except::is_ok`. -/
def isOkE : Except NoSuchChar HandsState → Bool
  | Except.ok _ => true
  | Except.error _ => false

/-- First character of the list which the dual-layer protocol cannot type,
given the layer state on arrival at that character. -/
def asetniopFirstFail (layout : Layout) : List Char → Option Char
  | [] => none
  | ch :: rest =>
    if (layoutGet layout.swap ch).isNone then some ch
    else asetniopFirstFail layout.swap rest

/-- The construction invariant demanded of every random layout: lookup
succeeds on every declared typable character, and distinct typable
characters receive distinct chords. -/
def totalInjective (ttc : Char → Except NoSuchChar HandsState) : Prop :=
  (∀ ch ∈ TYPABLE_CHARS.toList, ∃ hs, ttc ch = Except.ok hs)
    ∧ (∀ c₁ ∈ TYPABLE_CHARS.toList, ∀ c₂ ∈ TYPABLE_CHARS.toList, c₁ ≠ c₂ →
      ∀ h₁ h₂, ttc c₁ = Except.ok h₁ → ttc c₂ = Except.ok h₂ → h₁ ≠ h₂)

/-- Index of the thumb reserved for whitespace under a given coin flip:
`left_thumb` presses index 4, `right_thumb` index 5. -/
def wsPosition (flip : Bool) : Nat := if flip then 4 else 5

/-- Index of the thumb reserved for newline under a given coin flip. -/
def nlPosition (flip : Bool) : Nat := if flip then 5 else 4

/-- Signature separating the five chord classes of the
modifier-constrained layout: bit 0 is the whitespace-thumb position, bit 1
the newline-thumb position, bit 2 whether at least two fingers are
pressed. -/
def sigOf (wsP nlP : Nat) (hs : HandsState) : Nat :=
  (if hs.getD wsP FingerState.Released = FingerState.Pressed then 1 else 0)
    + 2 * (if hs.getD nlP FingerState.Released = FingerState.Pressed
        then 1 else 0)
    + 4 * (if 2 ≤ HandsState.count_pressed hs then 1 else 0)

instance : DecidableEq (Except NoSuchChar (List HandsState))
  | Except.error a, Except.error b =>
    if h : a = b then isTrue (by rw [h])
    else isFalse (fun hh => by cases hh; exact h rfl)
  | Except.error _, Except.ok _ => isFalse (fun hh => by cases hh)
  | Except.ok _, Except.error _ => isFalse (fun hh => by cases hh)
  | Except.ok a, Except.ok b =>
    if h : a = b then isTrue (by rw [h])
    else isFalse (fun hh => by cases hh; exact h rfl)

section AssocLemmas

theorem assocGet_mem {ps : List (Char × HandsState)} {c : Char}
    {v : HandsState} (h : assocGet ps c = some v) : (c, v) ∈ ps := by
  induction ps with
  | nil => simp [assocGet] at h
  | cons p rest ih =>
    obtain ⟨k, w⟩ := p
    by_cases hc : c = k
    · subst hc
      simp [assocGet] at h
      subst h
      exact List.mem_cons_self _ _
    · simp [assocGet, hc] at h
      exact List.mem_cons_of_mem _ (ih h)

theorem assocGet_eq_none_iff {ps : List (Char × HandsState)} {c : Char} :
    assocGet ps c = none ↔ c ∉ ps.map Prod.fst := by
  induction ps with
  | nil => simp [assocGet]
  | cons p rest ih =>
    obtain ⟨k, w⟩ := p
    by_cases hc : c = k
    · subst hc; simp [assocGet]
    · simp [assocGet, hc, ih]

theorem assocGet_isSome (ps : List (Char × HandsState)) {c : Char}
    (h : c ∈ ps.map Prod.fst) : ∃ v, assocGet ps c = some v := by
  cases he : assocGet ps c with
  | none => exact absurd h (assocGet_eq_none_iff.mp he)
  | some v => exact ⟨v, rfl⟩

theorem assocGet_append_left {ps qs : List (Char × HandsState)} {c : Char}
    {v : HandsState} (h : assocGet ps c = some v) :
    assocGet (ps ++ qs) c = some v := by
  induction ps with
  | nil => simp [assocGet] at h
  | cons p rest ih =>
    obtain ⟨k, w⟩ := p
    by_cases hc : c = k
    · subst hc; simp [assocGet] at h ⊢; exact h
    · simp [assocGet, hc] at h ⊢; exact ih h

theorem assocGet_append_right {ps qs : List (Char × HandsState)} {c : Char}
    (h : assocGet ps c = none) :
    assocGet (ps ++ qs) c = assocGet qs c := by
  induction ps with
  | nil => simp
  | cons p rest ih =>
    obtain ⟨k, w⟩ := p
    by_cases hc : c = k
    · subst hc; simp [assocGet] at h
    · simp [assocGet, hc] at h ⊢; exact ih h

/-- On a map whose keys are pairwise distinct, `HashMap::get` (last binding
wins) agrees with first-match search of the insertion list. -/
theorem hmGet_eq_assocGet {ps : List (Char × HandsState)}
    (hnd : (ps.map Prod.fst).Nodup) (c : Char) :
    hmGet ps c = assocGet ps c := by
  induction ps with
  | nil => rfl
  | cons p rest ih =>
    obtain ⟨k, w⟩ := p
    simp only [List.map_cons, List.nodup_cons] at hnd
    obtain ⟨hk, hrest⟩ := hnd
    simp only [hmGet, List.reverse_cons]
    by_cases hc : c = k
    · subst hc
      have hnone : assocGet rest.reverse c = none := by
        rw [assocGet_eq_none_iff]
        intro hmem
        exact hk (by simpa [List.map_reverse] using hmem)
      rw [assocGet_append_right hnone]
      simp [assocGet]
    · cases he : assocGet rest.reverse c with
      | some v =>
        rw [assocGet_append_left he]
        have : hmGet rest c = some v := he
        rw [ih hrest] at this
        simp [assocGet, hc, this]
      | none =>
        rw [assocGet_append_right he]
        have : hmGet rest c = none := he
        rw [ih hrest] at this
        simp [assocGet, hc, this]

/-- Rust `zip` truncates its longer argument. -/
theorem zip_eq_zip_take {α β : Type} :
    ∀ (ks : List α) (vs : List β), ks.zip vs = (ks.take vs.length).zip vs
  | [], _ => by simp
  | _ :: _, [] => by simp
  | k :: ks, v :: vs => by
    simp [List.zip_cons_cons, zip_eq_zip_take ks vs]

theorem map_fst_zip_truncated {α β : Type} :
    ∀ (ks : List α) (vs : List β),
      (ks.zip vs).map Prod.fst = ks.take vs.length
  | [], _ => by simp
  | _ :: _, [] => by simp
  | k :: ks, v :: vs => by
    simp [List.zip_cons_cons, map_fst_zip_truncated ks vs]

theorem assocGet_zip_val_mem {ks : List Char} {vs : List HandsState}
    {c : Char} {v : HandsState} (h : assocGet (ks.zip vs) c = some v) :
    v ∈ vs :=
  (List.of_mem_zip (assocGet_mem h)).2

/-- Looking two distinct keys up in a zip of distinct keys with distinct
values yields distinct values. -/
theorem assocGet_zip_inj {ks : List Char} {vs : List HandsState}
    (hks : ks.Nodup) (hvs : vs.Nodup) {c₁ c₂ : Char} {v₁ v₂ : HandsState}
    (hne : c₁ ≠ c₂)
    (e₁ : assocGet (ks.zip vs) c₁ = some v₁)
    (e₂ : assocGet (ks.zip vs) c₂ = some v₂) : v₁ ≠ v₂ := by
  induction ks generalizing vs with
  | nil => simp [assocGet] at e₁
  | cons k ks ih =>
    cases vs with
    | nil => simp [assocGet] at e₁
    | cons v vs =>
      simp only [List.nodup_cons] at hks hvs
      obtain ⟨hk, hks'⟩ := hks
      obtain ⟨hv, hvs'⟩ := hvs
      simp only [List.zip_cons_cons] at e₁ e₂
      by_cases h1 : c₁ = k
      · subst h1
        simp [assocGet] at e₁
        subst e₁
        have h2 : c₂ ≠ c₁ := fun h => hne h.symm
        simp [assocGet, h2] at e₂
        intro hvv
        exact hv (hvv ▸ assocGet_zip_val_mem e₂)
      · by_cases h2 : c₂ = k
        · subst h2
          simp [assocGet] at e₂
          subst e₂
          simp [assocGet, h1] at e₁
          intro hvv
          exact hv (hvv ▸ assocGet_zip_val_mem e₁)
        · simp [assocGet, h1] at e₁
          simp [assocGet, h2] at e₂
          exact ih hks' hvs' e₁ e₂

end AssocLemmas

section CombineLemmas

theorem combine_cons {x y : FingerState} {xs ys : List FingerState} :
    HandsState.combine (x :: xs) (y :: ys) =
      (if y = FingerState.Pressed then FingerState.Pressed else x)
        :: HandsState.combine xs ys := by
  simp [HandsState.combine, zipWithTail]

theorem combine_getD {a b : HandsState} (h : a.length = b.length) :
    ∀ i : Nat,
      ((HandsState.combine a b).getD i FingerState.Released
          = FingerState.Pressed
        ↔ (a.getD i FingerState.Released = FingerState.Pressed
            ∨ b.getD i FingerState.Released = FingerState.Pressed)) := by
  induction a generalizing b with
  | nil =>
    cases b with
    | nil => intro i; simp [HandsState.combine, zipWithTail]
    | cons y ys => simp at h
  | cons x xs ih =>
    cases b with
    | nil => simp at h
    | cons y ys =>
      simp only [List.length_cons, Nat.add_right_cancel_iff] at h
      intro i
      cases i with
      | zero =>
        rw [combine_cons]
        cases x <;> cases y <;> simp
      | succ i =>
        rw [combine_cons]
        simpa using ih h i

theorem combine_comm {a b : HandsState} (h : a.length = b.length) :
    HandsState.combine a b = HandsState.combine b a := by
  induction a generalizing b with
  | nil => cases b with
    | nil => rfl
    | cons y ys => simp at h
  | cons x xs ih =>
    cases b with
    | nil => simp at h
    | cons y ys =>
      simp only [List.length_cons, Nat.add_right_cancel_iff] at h
      rw [combine_cons, combine_cons, ih h]
      cases x <;> cases y <;> simp

theorem combine_self (a : HandsState) : HandsState.combine a a = a := by
  induction a with
  | nil => rfl
  | cons x xs ih =>
    rw [combine_cons, ih]
    cases x <;> simp

end CombineLemmas

/-- C9: `HandsState::combine` is the pointwise logical OR of the two
chords — a position of the result is `Pressed` exactly when that position
is `Pressed` in either operand — and is therefore commutative and
idempotent. -/
theorem combine_is_pointwise_or_comm_idem (a b : HandsState)
    (ha : a.length = 10) (hb : b.length = 10) :
    (∀ i : Nat,
      ((HandsState.combine a b).getD i FingerState.Released
          = FingerState.Pressed
        ↔ (a.getD i FingerState.Released = FingerState.Pressed
            ∨ b.getD i FingerState.Released = FingerState.Pressed)))
      ∧ HandsState.combine a b = HandsState.combine b a
      ∧ HandsState.combine a a = a := by
  refine ⟨combine_getD (by rw [ha, hb]), combine_comm (by rw [ha, hb]),
    combine_self a⟩

/-- Witness for C9 at two concrete chords. -/
theorem combine_is_pointwise_or_comm_idem_witness :
    HandsState.combine HandsState.left_thumb HandsState.right_thumb
        = HandsState.combine HandsState.right_thumb HandsState.left_thumb
      ∧ (HandsState.combine HandsState.left_thumb
          HandsState.right_thumb).getD 4 FingerState.Released
        = FingerState.Pressed :=
  ⟨(combine_is_pointwise_or_comm_idem HandsState.left_thumb
      HandsState.right_thumb (by decide) (by decide)).2.1,
   ((combine_is_pointwise_or_comm_idem HandsState.left_thumb
      HandsState.right_thumb (by decide) (by decide)).1 4).mpr
     (Or.inl (by decide))⟩

/-- C4: the five chord-space generators produce exactly 8, 28, 36, 108 and
110 chords, each output list is pairwise distinct, and every generated
chord presses 1-2 fingers in the no-thumbs spaces and 1-3 fingers in the
with-thumbs and all-states spaces. -/
theorem chord_space_counts_distinct_pressed :
    (HandsState.iterate_one_key_no_thumbs.length = 8
      ∧ HandsState.iterate_two_key_no_thumbs.length = 28
      ∧ HandsState.iterate_one_two_key_no_thumbs.length = 36
      ∧ HandsState.iterate_one_two_key_with_thumbs.length = 108
      ∧ HandsState.iterate_one_two_key_all_states.length = 110)
    ∧ (HandsState.iterate_one_key_no_thumbs.Nodup
      ∧ HandsState.iterate_two_key_no_thumbs.Nodup
      ∧ HandsState.iterate_one_two_key_no_thumbs.Nodup
      ∧ HandsState.iterate_one_two_key_with_thumbs.Nodup
      ∧ HandsState.iterate_one_two_key_all_states.Nodup)
    ∧ (∀ hs ∈ HandsState.iterate_one_key_no_thumbs,
        HandsState.count_pressed hs = 1 ∨ HandsState.count_pressed hs = 2)
    ∧ (∀ hs ∈ HandsState.iterate_two_key_no_thumbs,
        HandsState.count_pressed hs = 1 ∨ HandsState.count_pressed hs = 2)
    ∧ (∀ hs ∈ HandsState.iterate_one_two_key_no_thumbs,
        HandsState.count_pressed hs = 1 ∨ HandsState.count_pressed hs = 2)
    ∧ (∀ hs ∈ HandsState.iterate_one_two_key_with_thumbs,
        HandsState.count_pressed hs = 1 ∨ HandsState.count_pressed hs = 2
          ∨ HandsState.count_pressed hs = 3)
    ∧ (∀ hs ∈ HandsState.iterate_one_two_key_all_states,
        HandsState.count_pressed hs = 1 ∨ HandsState.count_pressed hs = 2
          ∨ HandsState.count_pressed hs = 3) := by
  decide

/-- C5 counterexample: the right-thumb-only constant does NOT press
position 9 (it presses position 5), and the one-key no-thumbs generator
does emit a chord whose position 9 is pressed. -/
theorem thumb_slots_not_4_and_9 :
    ¬ (HandsState.right_thumb.getD 9 FingerState.Released
        = FingerState.Pressed)
      ∧ ¬ (∀ hs ∈ HandsState.iterate_one_key_no_thumbs,
          hs.getD 9 FingerState.Released = FingerState.Released) := by
  decide

/-- C5 amended: the two thumb slots are positions 4 and 5 — the left-thumb
constant presses exactly position 4, the right-thumb constant exactly
position 5, and every chord of the no-thumbs generators leaves positions 4
and 5 released. -/
theorem thumb_slots_are_4_and_5 :
    (∀ i < 10,
      (HandsState.left_thumb.getD i FingerState.Released
          = FingerState.Pressed ↔ i = 4))
      ∧ (∀ i < 10,
        (HandsState.right_thumb.getD i FingerState.Released
            = FingerState.Pressed ↔ i = 5))
      ∧ (∀ hs ∈ HandsState.iterate_one_two_key_no_thumbs,
        hs.getD 4 FingerState.Released = FingerState.Released
          ∧ hs.getD 5 FingerState.Released = FingerState.Released) := by
  decide

theorem asetniopLoop_eq_specRun :
    ∀ (chars : List Char) (layout : Layout) (acc : List HandsState),
      asetniopLoop layout acc chars
        = Except.map (fun l => acc ++ l) (asetniopSpecRun layout chars)
  | [], layout, acc => by simp [asetniopLoop, asetniopSpecRun, Except.map]
  | ch :: rest, layout, acc => by
    cases hpost : layoutGet layout.swap ch with
    | none =>
      simp [asetniopLoop, asetniopSpecRun, asetniopEmits, hpost, Except.map]
    | some hs =>
      cases hpre : layoutGet layout ch with
      | none =>
        simp only [asetniopLoop, asetniopSpecRun, asetniopEmits, hpost, hpre]
        rw [asetniopLoop_eq_specRun rest layout.swap]
        cases asetniopSpecRun layout.swap rest <;> simp [Except.map]
      | some h0 =>
        simp only [asetniopLoop, asetniopSpecRun, asetniopEmits, hpost, hpre]
        rw [asetniopLoop_eq_specRun rest layout.swap]
        cases asetniopSpecRun layout.swap rest <;> simp [Except.map]

/-- C2: `Asetniop::try_type_chars` realises the per-character protocol of
the specification — characters in order, layer starting at `Letters` and
swapping exactly once per character regardless of the first lookup's
outcome; per character the pre-swap layer's chord is appended when present,
then the switch chord plus the post-swap layer's chord when the character
is found there, and otherwise the whole conversion aborts with
`NoSuchChar` for that character. -/
theorem asetniop_try_type_chars_follows_protocol (chars : List Char) :
    Asetniop.try_type_chars chars = asetniopSpecRun Layout.Letters chars := by
  rw [Asetniop.try_type_chars, asetniopLoop_eq_specRun]
  cases asetniopSpecRun Layout.Letters chars <;> simp [Except.map]

theorem collectTyped_cons_ok {f : Char → Except NoSuchChar HandsState}
    {c : Char} {hs : HandsState} (h : f c = Except.ok hs) {rest : List Char} :
    collectTyped f (c :: rest)
      = Except.map (fun l => hs :: l) (collectTyped f rest) := by
  simp [collectTyped, h]

theorem collectTyped_cons_error {f : Char → Except NoSuchChar HandsState}
    {c : Char} {e : NoSuchChar} (h : f c = Except.error e)
    {rest : List Char} :
    collectTyped f (c :: rest) = Except.error e := by
  simp [collectTyped, h]

theorem okOr_error {o : Option HandsState} {e e' : NoSuchChar}
    (h : okOr o e' = Except.error e) : e = e' := by
  cases o <;> simp [okOr] at h
  exact h.symm

theorem collectTyped_error_first
    {f : Char → Except NoSuchChar HandsState}
    (hf : ∀ c e, f c = Except.error e → e = { ch := c }) :
    ∀ {l : List Char} {ch : Char},
      l.find? (fun c => !(isOkE (f c))) = some ch →
      collectTyped f l = Except.error { ch := ch } := by
  intro l
  induction l with
  | nil => intro ch h; simp [List.find?] at h
  | cons c rest ih =>
    intro ch h
    cases hc : f c with
    | error e =>
      have : isOkE (f c) = false := by rw [hc]; rfl
      simp [List.find?, this] at h
      subst h
      simp [collectTyped, hc, hf c e hc]
    | ok hs =>
      have : isOkE (f c) = true := by rw [hc]; rfl
      simp [List.find?, this] at h
      rw [collectTyped, hc, ih h]
      rfl

theorem asetniopLoop_error_first :
    ∀ {chars : List Char} (layout : Layout) (acc : List HandsState)
      {ch : Char}, asetniopFirstFail layout chars = some ch →
      asetniopLoop layout acc chars = Except.error { ch := ch }
  | [], layout, acc, ch => by intro h; simp [asetniopFirstFail] at h
  | c :: rest, layout, acc, ch => by
    intro h
    cases hpost : layoutGet layout.swap c with
    | none =>
      simp [asetniopFirstFail, hpost] at h
      subst h
      simp [asetniopLoop, hpost]
    | some hs =>
      simp [asetniopFirstFail, hpost] at h
      simp only [asetniopLoop, hpost]
      exact asetniopLoop_error_first layout.swap _ h

/-- C3: every keyboard of the repository fails fast.  For the three random
Tenboard variants (whose blanket `Keyboard` impl collects
`try_type_char` results) and for `Asetniop`, a character sequence whose
first per-character failure is at `ch` makes `try_type_chars` return
`Err(NoSuchChar{ch})` — an error value carrying no chords. -/
theorem try_type_chars_fail_fast :
    (∀ (tb : TenboardUnconstrained) (l : List Char) (ch : Char),
      l.find? (fun c => !(isOkE (tb.try_type_char c))) = some ch →
      collectTyped tb.try_type_char l = Except.error { ch := ch })
    ∧ (∀ (tb : TenboardThumbConstrained) (l : List Char) (ch : Char),
      l.find? (fun c => !(isOkE (tb.try_type_char c))) = some ch →
      collectTyped tb.try_type_char l = Except.error { ch := ch })
    ∧ (∀ (tb : TenboardModifierConstrained) (l : List Char) (ch : Char),
      l.find? (fun c => !(isOkE (tb.try_type_char c))) = some ch →
      collectTyped tb.try_type_char l = Except.error { ch := ch })
    ∧ (∀ (l : List Char) (ch : Char),
      asetniopFirstFail Layout.Letters l = some ch →
      Asetniop.try_type_chars l = Except.error { ch := ch }) := by
  refine ⟨?_, ?_, ?_, ?_⟩
  · intro tb l ch h
    refine collectTyped_error_first ?_ h
    intro c e he
    exact okOr_error he
  · intro tb l ch h
    refine collectTyped_error_first ?_ h
    intro c e he
    rw [TenboardThumbConstrained.try_type_char] at he
    split at he
    · cases he
    · split at he
      · cases he
      · exact okOr_error he
  · intro tb l ch h
    refine collectTyped_error_first ?_ h
    intro c e he
    exact okOr_error he
  · intro l ch h
    exact asetniopLoop_error_first Layout.Letters [] h

/-- Witness for C3: each keyboard kind, applied to a sequence whose first
character is untypeable, errors with that character. -/
theorem try_type_chars_fail_fast_witness :
    collectTyped (TenboardUnconstrained.try_type_char { layout := [] }) ['a']
        = Except.error { ch := 'a' }
      ∧ collectTyped
          (TenboardThumbConstrained.try_type_char
            { whitespace_hs := HandsState.left_thumb
              newline_hs := HandsState.right_thumb
              layout := [] }) ['a']
        = Except.error { ch := 'a' }
      ∧ collectTyped
          (TenboardModifierConstrained.try_type_char
            { whitespace_hs := HandsState.left_thumb
              newline_hs := HandsState.right_thumb
              lowercase_digit_layout := []
              punctuation_layout := [] }) ['a']
        = Except.error { ch := 'a' }
      ∧ Asetniop.try_type_chars ['a'] = Except.error { ch := 'a' } :=
  ⟨try_type_chars_fail_fast.1 _ ['a'] 'a' rfl,
   try_type_chars_fail_fast.2.1 _ ['a'] 'a' rfl,
   try_type_chars_fail_fast.2.2.1 _ ['a'] 'a' rfl,
   try_type_chars_fail_fast.2.2.2 ['a'] 'a' rfl⟩

/-- C10: on a fresh `Asetniop` the single character list `['a']` is
untypeable — the letters table holds `a`, but after the unconditional swap
the symbols table does not, so the conversion errors with `NoSuchChar`,
discarding the chord already found; in general any character absent from
the post-swap table aborts the loop whatever was accumulated. -/
theorem asetniop_a_is_untypeable :
    Asetniop.try_type_chars ['a'] = Except.error { ch := 'a' }
      ∧ (layoutGet Layout.Letters 'a').isSome = true
      ∧ ∀ (layout : Layout) (acc : List HandsState) (ch : Char)
          (rest : List Char),
          layoutGet layout.swap ch = none →
          asetniopLoop layout acc (ch :: rest) = Except.error { ch := ch } := by
  refine ⟨rfl, rfl, ?_⟩
  intro layout acc ch rest h
  simp [asetniopLoop, h]

/-- Witness for C10's universally quantified clause: even with a non-empty
accumulator and the character present in the pre-swap table, a post-swap
miss discards everything. -/
theorem asetniop_a_is_untypeable_witness :
    asetniopLoop Layout.Letters [SWITCH_COMBINATION] ['a']
        = Except.error { ch := 'a' } :=
  asetniop_a_is_untypeable.2.2 Layout.Letters [SWITCH_COMBINATION] 'a' [] rfl

/-- C8: `type_chars_skip` of the `src/layout/tenboard.rs` unconstrained
layout never fails (it returns a plain list) and yields exactly the chords
of the typeable characters in input order, silently omitting every
untypeable character; on a fully typeable input it agrees with
`try_type_chars`. -/
theorem type_chars_skip_drops_untypeable
    (tb : LayoutModule.TenboardUnconstrained) (chars : List Char) :
    tb.type_chars_skip chars
        = (chars.filter (fun ch => (hmGet tb.layout ch).isSome)).map
            (fun ch => (hmGet tb.layout ch).getD [])
      ∧ ∀ hss, tb.try_type_chars chars = Except.ok hss →
          tb.type_chars_skip chars = hss := by
  constructor
  · induction chars with
    | nil => rfl
    | cons c rest ih =>
      cases hc : hmGet tb.layout c with
      | none =>
        simp [LayoutModule.TenboardUnconstrained.type_chars_skip,
          List.filterMap, hc, List.filter] at ih ⊢
        exact ih
      | some v =>
        simp [LayoutModule.TenboardUnconstrained.type_chars_skip,
          List.filterMap, hc, List.filter] at ih ⊢
        exact ih
  · induction chars with
    | nil =>
      intro hss h
      simp [LayoutModule.TenboardUnconstrained.try_type_chars,
        collectTyped] at h
      simp [LayoutModule.TenboardUnconstrained.type_chars_skip, ← h]
    | cons c rest ih =>
      intro hss h
      rw [LayoutModule.TenboardUnconstrained.try_type_chars] at h
      cases hc : hmGet tb.layout c with
      | none =>
        rw [collectTyped_cons_error
          (show okOr (hmGet tb.layout c) { ch := c } = Except.error { ch := c }
            from by rw [hc]; rfl)] at h
        cases h
      | some v =>
        rw [collectTyped_cons_ok
          (show okOr (hmGet tb.layout c) { ch := c } = Except.ok v
            from by rw [hc]; rfl)] at h
        cases hrest : collectTyped
            (fun ch => okOr (hmGet tb.layout ch) { ch := ch }) rest with
        | error e => rw [hrest] at h; simp [Except.map] at h
        | ok hss' =>
          rw [hrest] at h
          simp only [Except.map, Except.ok.injEq] at h
          subst h
          have hskip := ih hss'
            (by rw [LayoutModule.TenboardUnconstrained.try_type_chars]
                exact hrest)
          simp [LayoutModule.TenboardUnconstrained.type_chars_skip,
            List.filterMap, hc] at hskip ⊢
          exact hskip

/-- Witness for C8's conditional clause at a concrete layout and text. -/
theorem type_chars_skip_drops_untypeable_witness :
    LayoutModule.TenboardUnconstrained.type_chars_skip
        { layout := [('a', HandsState.left_thumb)] } ['a', 'a']
      = [HandsState.left_thumb, HandsState.left_thumb] :=
  (type_chars_skip_drops_untypeable
    { layout := [('a', HandsState.left_thumb)] } ['a', 'a']).2
    [HandsState.left_thumb, HandsState.left_thumb] rfl

section MetricLemmas

theorem zipWithTail_length {α β : Type} (f : α → β → α) (a : List α)
    (b : List β) : (zipWithTail f a b).length = a.length := by
  simp [zipWithTail, List.length_zipWith]
  omega

theorem list_len10 {α : Type} (l : List α) (h : l.length = 10) :
    ∃ a b c d e f g h9 i j, l = [a, b, c, d, e, f, g, h9, i, j] := by
  rcases l with _ | ⟨a, l⟩; · simp at h
  rcases l with _ | ⟨b, l⟩; · simp at h
  rcases l with _ | ⟨c, l⟩; · simp at h
  rcases l with _ | ⟨d, l⟩; · simp at h
  rcases l with _ | ⟨e, l⟩; · simp at h
  rcases l with _ | ⟨f, l⟩; · simp at h
  rcases l with _ | ⟨g, l⟩; · simp at h
  rcases l with _ | ⟨h9, l⟩; · simp at h
  rcases l with _ | ⟨i, l⟩; · simp at h
  rcases l with _ | ⟨j, l⟩; · simp at h
  cases l with
  | nil => exact ⟨a, b, c, d, e, f, g, h9, i, j, rfl⟩
  | cons k l => simp at h

theorem hand_of_finger_step (p : List Nat) (hs : HandsState)
    (hp : p.length = 10) (hhs : hs.length = 10) :
    HandUsage.ofFingerUsage (FingerUsage.update_once { presses := p } hs)
      = HandUsage.update_once
          (HandUsage.ofFingerUsage { presses := p }) hs := by
  obtain ⟨a0, a1, a2, a3, a4, a5, a6, a7, a8, a9, rfl⟩ := list_len10 p hp
  obtain ⟨b0, b1, b2, b3, b4, b5, b6, b7, b8, b9, rfl⟩ := list_len10 hs hhs
  simp only [HandUsage.ofFingerUsage, FingerUsage.update_once,
    HandUsage.update_once, zipWithTail, handChunks, u32sum, u32add, U32MOD,
    List.zipWith, List.foldl, List.map, List.take, List.drop,
    List.length_cons, List.length_nil, List.append_nil, List.nil_append,
    List.cons_append, HandUsage.mk.injEq, List.cons.injEq, and_true]
  rw [show (2 : Nat) ^ 32 = 4294967296 from by norm_num]
  omega

theorem hand_of_finger_update (l : List HandsState)
    (h : ∀ hs ∈ l, hs.length = 10) :
    ∀ p : List Nat, p.length = 10 →
      HandUsage.ofFingerUsage (FingerUsage.update { presses := p } l)
        = HandUsage.update (HandUsage.ofFingerUsage { presses := p }) l := by
  induction l with
  | nil => intro p hp; rfl
  | cons hs rest ih =>
    intro p hp
    have hhs : hs.length = 10 := h hs (List.mem_cons_self _ _)
    have hrest : ∀ x ∈ rest, x.length = 10 :=
      fun x hx => h x (List.mem_cons_of_mem _ hx)
    simp only [FingerUsage.update, HandUsage.update, List.foldl_cons]
    have hlen : (FingerUsage.update_once { presses := p } hs).presses.length
        = 10 := by
      simp only [FingerUsage.update_once]
      rw [zipWithTail_length]
      exact hp
    have h0 := ih hrest (FingerUsage.update_once { presses := p } hs).presses hlen
    simp only [FingerUsage.update, HandUsage.update] at h0
    have h1 : HandUsage.ofFingerUsage
          (List.foldl FingerUsage.update_once
            (FingerUsage.update_once { presses := p } hs) rest)
        = List.foldl HandUsage.update_once
            (HandUsage.ofFingerUsage
              (FingerUsage.update_once { presses := p } hs)) rest := h0
    rw [h1, hand_of_finger_step p hs hp hhs]

end MetricLemmas

/-- C7: converting a `FingerUsage` accumulator fed a chord sequence into a
`HandUsage` (summing each hand's five finger counters) yields exactly the
per-hand counters, and hence the score, of a fresh `HandUsage` accumulator
fed the same sequence directly. -/
theorem finger_to_hand_usage_refines (l : List HandsState)
    (h : ∀ hs ∈ l, hs.length = 10) :
    HandUsage.ofFingerUsage (FingerUsage.update FingerUsage.new l)
        = HandUsage.update HandUsage.new l
      ∧ (HandUsage.ofFingerUsage (FingerUsage.update FingerUsage.new l)).score
        = (HandUsage.update HandUsage.new l).score := by
  have hnew : HandUsage.ofFingerUsage FingerUsage.new = HandUsage.new := by
    rfl
  have heq := hand_of_finger_update l h (List.replicate 10 0) (by simp)
  rw [show ({ presses := List.replicate 10 0 } : FingerUsage)
      = FingerUsage.new from rfl, hnew] at heq
  exact ⟨heq, by rw [heq]⟩

/-- Witness for C7 at a concrete two-chord sequence. -/
theorem finger_to_hand_usage_refines_witness :
    HandUsage.ofFingerUsage
        (FingerUsage.update FingerUsage.new
          [HandsState.left_thumb, HandsState.right_thumb])
      = HandUsage.update HandUsage.new
          [HandsState.left_thumb, HandsState.right_thumb] :=
  (finger_to_hand_usage_refines
    [HandsState.left_thumb, HandsState.right_thumb] (by decide)).1

theorem okOr_eq_ok {o : Option HandsState} {e : NoSuchChar} {h : HandsState} :
    okOr o e = Except.ok h ↔ o = some h := by
  cases o <;> simp [okOr]

theorem typable_nodup : TYPABLE_CHARS.toList.Nodup := by decide

theorem all_states_nodup :
    HandsState.iterate_one_two_key_all_states.Nodup := by decide

theorem with_thumbs_nodup :
    HandsState.iterate_one_two_key_with_thumbs.Nodup := by decide

theorem no_thumbs_nodup :
    HandsState.iterate_one_two_key_no_thumbs.Nodup := by decide

theorem thumbs_not_in_with_thumbs :
    HandsState.left_thumb ∉ HandsState.iterate_one_two_key_with_thumbs
      ∧ HandsState.right_thumb ∉ HandsState.iterate_one_two_key_with_thumbs := by
  decide

theorem thumbPair_fst_ne_snd (flip : Bool) :
    (thumbPair flip).1 ≠ (thumbPair flip).2 := by
  cases flip <;> decide

theorem thumbPair_fst_not_in_with_thumbs (flip : Bool) :
    (thumbPair flip).1 ∉ HandsState.iterate_one_two_key_with_thumbs := by
  cases flip <;> simp [thumbPair] <;>
    first
      | exact thumbs_not_in_with_thumbs.1
      | exact thumbs_not_in_with_thumbs.2

theorem thumbPair_snd_not_in_with_thumbs (flip : Bool) :
    (thumbPair flip).2 ∉ HandsState.iterate_one_two_key_with_thumbs := by
  cases flip <;> simp [thumbPair] <;>
    first
      | exact thumbs_not_in_with_thumbs.1
      | exact thumbs_not_in_with_thumbs.2

/-- C1, part for `TenboardUnconstrained`. -/
theorem unconstrained_totalInjective (hss : List HandsState)
    (hperm : hss.Perm HandsState.iterate_one_two_key_all_states) :
    totalInjective (TenboardUnconstrained.new_random hss).try_type_char := by
  have hlen : TYPABLE_CHARS.toList.length ≤ hss.length := by
    rw [hperm.length_eq]; decide
  have hkeys : (TYPABLE_CHARS.toList.zip hss).map Prod.fst
      = TYPABLE_CHARS.toList := List.map_fst_zip _ _ hlen
  have hgetEq : ∀ c, hmGet (TYPABLE_CHARS.toList.zip hss) c
      = assocGet (TYPABLE_CHARS.toList.zip hss) c := fun c =>
    hmGet_eq_assocGet (by rw [hkeys]; exact typable_nodup) c
  have hvnd : hss.Nodup := hperm.symm.nodup all_states_nodup
  constructor
  · intro ch hch
    obtain ⟨v, hv⟩ := assocGet_isSome (TYPABLE_CHARS.toList.zip hss)
      (by rw [hkeys]; exact hch)
    refine ⟨v, ?_⟩
    show okOr (hmGet (TYPABLE_CHARS.toList.zip hss) ch) { ch := ch }
      = Except.ok v
    rw [hgetEq, hv]
    rfl
  · intro c₁ _ c₂ _ hne h₁ h₂ e₁ e₂
    have e₁h : okOr (hmGet (TYPABLE_CHARS.toList.zip hss) c₁) { ch := c₁ }
        = Except.ok h₁ := e₁
    have e₂h : okOr (hmGet (TYPABLE_CHARS.toList.zip hss) c₂) { ch := c₂ }
        = Except.ok h₂ := e₂
    rw [hgetEq] at e₁h e₂h
    exact assocGet_zip_inj typable_nodup hvnd hne
      (okOr_eq_ok.mp e₁h) (okOr_eq_ok.mp e₂h)

/-- C1, part for `TenboardThumbConstrained`. -/
theorem thumb_constrained_totalInjective (flip : Bool)
    (hss : List HandsState)
    (hperm : hss.Perm HandsState.iterate_one_two_key_with_thumbs) :
    totalInjective
      (TenboardThumbConstrained.new_random flip hss).try_type_char := by
  have htry : ∀ c,
      (TenboardThumbConstrained.new_random flip hss).try_type_char c
        = if c = ' ' then Except.ok (thumbPair flip).1
          else if c = '\n' then Except.ok (thumbPair flip).2
          else okOr (hmGet ((TYPABLE_CHARS.toList.filter
              (fun ch => ch ≠ ' ' && ch ≠ '\n')).zip hss) c) { ch := c } :=
    fun c => rfl
  set filtered := TYPABLE_CHARS.toList.filter
    (fun ch => ch ≠ ' ' && ch ≠ '\n') with hfiltered
  have hknd : filtered.Nodup := by rw [hfiltered]; decide
  have hlen : filtered.length ≤ hss.length := by
    rw [hperm.length_eq, hfiltered]; decide
  have hkeys : (filtered.zip hss).map Prod.fst = filtered :=
    List.map_fst_zip _ _ hlen
  have hgetEq : ∀ c, hmGet (filtered.zip hss) c
      = assocGet (filtered.zip hss) c := fun c =>
    hmGet_eq_assocGet (by rw [hkeys]; exact hknd) c
  have hvnd : hss.Nodup := hperm.symm.nodup with_thumbs_nodup
  have hval : ∀ {c h}, assocGet (filtered.zip hss) c = some h →
      h ∈ HandsState.iterate_one_two_key_with_thumbs := fun hc =>
    hperm.mem_iff.mp (assocGet_zip_val_mem hc)
  have hmem : ∀ {c}, c ∈ TYPABLE_CHARS.toList → c ≠ ' ' → c ≠ '\n' →
      c ∈ filtered := by
    intro c hc h1 h2
    rw [hfiltered]
    exact List.mem_filter.mpr ⟨hc, by simp [h1, h2]⟩
  constructor
  · intro ch hch
    by_cases h1 : ch = ' '
    · exact ⟨(thumbPair flip).1, by rw [htry, if_pos h1]⟩
    by_cases h2 : ch = '\n'
    · exact ⟨(thumbPair flip).2, by rw [htry, if_neg h1, if_pos h2]⟩
    obtain ⟨v, hv⟩ := assocGet_isSome (filtered.zip hss)
      (by rw [hkeys]; exact hmem hch h1 h2)
    refine ⟨v, ?_⟩
    rw [htry, if_neg h1, if_neg h2, hgetEq, hv]
    rfl
  · intro c₁ _ c₂ _ hne h₁ h₂ e₁ e₂
    rw [htry] at e₁ e₂
    by_cases h1s : c₁ = ' '
    · rw [if_pos h1s] at e₁
      simp only [Except.ok.injEq] at e₁
      subst e₁
      by_cases h2s : c₂ = ' '
      · exact absurd (h1s.trans h2s.symm) hne
      rw [if_neg h2s] at e₂
      by_cases h2n : c₂ = '\n'
      · rw [if_pos h2n] at e₂
        simp only [Except.ok.injEq] at e₂
        subst e₂
        exact thumbPair_fst_ne_snd flip
      · rw [if_neg h2n, hgetEq] at e₂
        have hv2 := hval (okOr_eq_ok.mp e₂)
        intro hcontra
        rw [← hcontra] at hv2
        exact thumbPair_fst_not_in_with_thumbs flip hv2
    · rw [if_neg h1s] at e₁
      by_cases h1n : c₁ = '\n'
      · rw [if_pos h1n] at e₁
        simp only [Except.ok.injEq] at e₁
        subst e₁
        by_cases h2s : c₂ = ' '
        · rw [if_pos h2s] at e₂
          simp only [Except.ok.injEq] at e₂
          subst e₂
          exact fun hc => thumbPair_fst_ne_snd flip hc.symm
        rw [if_neg h2s] at e₂
        by_cases h2n : c₂ = '\n'
        · exact absurd (h1n.trans h2n.symm) hne
        · rw [if_neg h2n, hgetEq] at e₂
          have hv2 := hval (okOr_eq_ok.mp e₂)
          intro hcontra
          rw [← hcontra] at hv2
          exact thumbPair_snd_not_in_with_thumbs flip hv2
      · rw [if_neg h1n, hgetEq] at e₁
        have hv1 := hval (okOr_eq_ok.mp e₁)
        by_cases h2s : c₂ = ' '
        · rw [if_pos h2s] at e₂
          simp only [Except.ok.injEq] at e₂
          subst e₂
          intro hcontra
          rw [hcontra] at hv1
          exact thumbPair_fst_not_in_with_thumbs flip hv1
        rw [if_neg h2s] at e₂
        by_cases h2n : c₂ = '\n'
        · rw [if_pos h2n] at e₂
          simp only [Except.ok.injEq] at e₂
          subst e₂
          intro hcontra
          rw [hcontra] at hv1
          exact thumbPair_snd_not_in_with_thumbs flip hv1
        · rw [if_neg h2n, hgetEq] at e₂
          exact assocGet_zip_inj hknd hvnd hne
            (okOr_eq_ok.mp e₁) (okOr_eq_ok.mp e₂)

theorem ne_of_sig_ne {w n : Nat} {a b : HandsState}
    (h : sigOf w n a ≠ sigOf w n b) : a ≠ b :=
  fun he => h (he ▸ rfl)

theorem sig_ws (flip : Bool) :
    sigOf (wsPosition flip) (nlPosition flip) (thumbPair flip).1 = 1 := by
  cases flip <;> decide

theorem sig_nl (flip : Bool) :
    sigOf (wsPosition flip) (nlPosition flip) (thumbPair flip).2 = 2 := by
  cases flip <;> decide

theorem sig_no_thumbs (flip : Bool) :
    ∀ hs ∈ HandsState.iterate_one_two_key_no_thumbs,
      sigOf (wsPosition flip) (nlPosition flip) hs = 0
        ∨ sigOf (wsPosition flip) (nlPosition flip) hs = 4 := by
  cases flip <;> decide

theorem sig_upper (flip : Bool) :
    ∀ hs ∈ HandsState.iterate_one_two_key_no_thumbs,
      sigOf (wsPosition flip) (nlPosition flip)
        (HandsState.combine hs (thumbPair flip).1) = 5 := by
  cases flip <;> decide

theorem sig_punct (flip : Bool) :
    ∀ hs ∈ HandsState.iterate_one_two_key_no_thumbs,
      sigOf (wsPosition flip) (nlPosition flip)
        (HandsState.combine hs (thumbPair flip).2) = 6 := by
  cases flip <;> decide

theorem combine_ws_inj (flip : Bool) :
    ∀ a ∈ HandsState.iterate_one_two_key_no_thumbs, ∀ b ∈ HandsState.iterate_one_two_key_no_thumbs,
      HandsState.combine a (thumbPair flip).1
          = HandsState.combine b (thumbPair flip).1 → a = b := by
  cases flip <;> decide

theorem map_combine_nl_nodup (flip : Bool) :
    (HandsState.iterate_one_two_key_no_thumbs.map
      (fun h => HandsState.combine h (thumbPair flip).2)).Nodup := by
  cases flip <;> decide

theorem combine_nl_pressed (flip : Bool) :
    ∀ hs ∈ HandsState.iterate_one_two_key_no_thumbs,
      (HandsState.combine hs (thumbPair flip).2).getD (nlPosition flip)
        FingerState.Released = FingerState.Pressed := by
  cases flip <;> decide

theorem ld_keys_nodup : (((LOWERCASE_CHARS.toList ++ DIGIT_CHARS.toList).take 36)).Nodup := by decide

theorem punct_keys_nodup : ((PUNCTUATION_CHARS.toList.filter (fun ch => ch ≠ ' ' && ch ≠ '\n'))).Nodup := by decide

/-- Exhaustive branch classification of the typable characters for
`TenboardModifierConstrained::try_type_char`. -/
theorem modifier_class : ∀ ch ∈ TYPABLE_CHARS.toList,
    ch = ' ' ∨ ch = '\n'
    ∨ (ch ≠ ' ' ∧ ch ≠ '\n'
        ∧ (charIsLowercase ch || charIsAsciiDigit ch) = true ∧ ch ∈ ((LOWERCASE_CHARS.toList ++ DIGIT_CHARS.toList).take 36))
    ∨ (ch ≠ ' ' ∧ ch ≠ '\n'
        ∧ (charIsLowercase ch || charIsAsciiDigit ch) = false
        ∧ charIsUppercase ch = true ∧ toAsciiLowercase ch ∈ ((LOWERCASE_CHARS.toList ++ DIGIT_CHARS.toList).take 36))
    ∨ (ch ≠ ' ' ∧ ch ≠ '\n'
        ∧ (charIsLowercase ch || charIsAsciiDigit ch) = false
        ∧ charIsUppercase ch = false ∧ ch ∈ (PUNCTUATION_CHARS.toList.filter (fun ch => ch ≠ ' ' && ch ≠ '\n'))) := by
  decide

set_option maxRecDepth 8000 in
theorem upper_tolower_inj :
    ∀ c₁ ∈ TYPABLE_CHARS.toList, ∀ c₂ ∈ TYPABLE_CHARS.toList,
      charIsUppercase c₁ = true → charIsUppercase c₂ = true →
      toAsciiLowercase c₁ = toAsciiLowercase c₂ → c₁ = c₂ := by
  decide

/-- C1, part for `TenboardModifierConstrained`. -/
theorem modifier_constrained_totalInjective (flip : Bool)
    (hss1 hss2 : List HandsState)
    (hp1 : hss1.Perm HandsState.iterate_one_two_key_no_thumbs)
    (hp2 : hss2.Perm (HandsState.iterate_one_two_key_no_thumbs.map
      (fun hs => HandsState.combine hs (thumbPair flip).2))) :
    totalInjective
      (TenboardModifierConstrained.new_random flip hss1 hss2).try_type_char := by
  have hl1 : hss1.length = 36 := by rw [hp1.length_eq]; decide
  have hl2 : hss2.length = 36 := by
    rw [hp2.length_eq, List.length_map]; decide
  have hzip1 : (LOWERCASE_CHARS.toList ++ DIGIT_CHARS.toList).zip hss1
      = ((LOWERCASE_CHARS.toList ++ DIGIT_CHARS.toList).take 36).zip hss1 := by
    rw [zip_eq_zip_take (LOWERCASE_CHARS.toList ++ DIGIT_CHARS.toList) hss1,
      hl1]
  have htry : ∀ c,
      (TenboardModifierConstrained.new_random flip hss1 hss2).try_type_char c
        = okOr
            (if c = ' ' then some (thumbPair flip).1
             else if c = '\n' then some (thumbPair flip).2
             else if charIsLowercase c || charIsAsciiDigit c then
               hmGet (((LOWERCASE_CHARS.toList ++ DIGIT_CHARS.toList).take 36).zip hss1) c
             else if charIsUppercase c then
               Option.map
                 (fun hs => HandsState.combine hs (thumbPair flip).1)
                 (hmGet (((LOWERCASE_CHARS.toList ++ DIGIT_CHARS.toList).take 36).zip hss1) (toAsciiLowercase c))
             else hmGet ((PUNCTUATION_CHARS.toList.filter (fun ch => ch ≠ ' ' && ch ≠ '\n')).zip hss2) c)
            { ch := c } := by
    intro c
    have h0 :
        (TenboardModifierConstrained.new_random flip hss1 hss2).try_type_char c
          = okOr
              (if c = ' ' then some (thumbPair flip).1
               else if c = '\n' then some (thumbPair flip).2
               else if charIsLowercase c || charIsAsciiDigit c then
                 hmGet ((LOWERCASE_CHARS.toList ++ DIGIT_CHARS.toList).zip
                   hss1) c
               else if charIsUppercase c then
                 Option.map
                   (fun hs => HandsState.combine hs (thumbPair flip).1)
                   (hmGet ((LOWERCASE_CHARS.toList ++ DIGIT_CHARS.toList).zip
                     hss1) (toAsciiLowercase c))
               else hmGet ((PUNCTUATION_CHARS.toList.filter (fun ch => ch ≠ ' ' && ch ≠ '\n')).zip hss2) c)
              { ch := c } := rfl
    rw [h0, hzip1]
  have hkeys1 : (((LOWERCASE_CHARS.toList ++ DIGIT_CHARS.toList).take 36).zip hss1).map Prod.fst = ((LOWERCASE_CHARS.toList ++ DIGIT_CHARS.toList).take 36) :=
    List.map_fst_zip _ _ (by rw [hl1]; decide)
  have hkeys2 : ((PUNCTUATION_CHARS.toList.filter (fun ch => ch ≠ ' ' && ch ≠ '\n')).zip hss2).map Prod.fst = (PUNCTUATION_CHARS.toList.filter (fun ch => ch ≠ ' ' && ch ≠ '\n')) :=
    List.map_fst_zip _ _ (by rw [hl2]; decide)
  have hget1 : ∀ c, hmGet (((LOWERCASE_CHARS.toList ++ DIGIT_CHARS.toList).take 36).zip hss1) c = assocGet (((LOWERCASE_CHARS.toList ++ DIGIT_CHARS.toList).take 36).zip hss1) c :=
    fun c => hmGet_eq_assocGet (by rw [hkeys1]; exact ld_keys_nodup) c
  have hget2 : ∀ c, hmGet ((PUNCTUATION_CHARS.toList.filter (fun ch => ch ≠ ' ' && ch ≠ '\n')).zip hss2) c = assocGet ((PUNCTUATION_CHARS.toList.filter (fun ch => ch ≠ ' ' && ch ≠ '\n')).zip hss2) c :=
    fun c => hmGet_eq_assocGet (by rw [hkeys2]; exact punct_keys_nodup) c
  have hvnd1 : hss1.Nodup := hp1.symm.nodup no_thumbs_nodup
  have hvnd2 : hss2.Nodup := hp2.symm.nodup (map_combine_nl_nodup flip)
  have hv1 : ∀ {c h}, assocGet (((LOWERCASE_CHARS.toList ++ DIGIT_CHARS.toList).take 36).zip hss1) c = some h →
      h ∈ HandsState.iterate_one_two_key_no_thumbs := fun hc => hp1.mem_iff.mp (assocGet_zip_val_mem hc)
  have hv2 : ∀ {c h}, assocGet ((PUNCTUATION_CHARS.toList.filter (fun ch => ch ≠ ' ' && ch ≠ '\n')).zip hss2) c = some h →
      ∃ b, b ∈ HandsState.iterate_one_two_key_no_thumbs ∧ h = HandsState.combine b (thumbPair flip).2 := by
    intro c h hc
    obtain ⟨b, hb, hbe⟩ :=
      List.mem_map.mp (hp2.mem_iff.mp (assocGet_zip_val_mem hc))
    exact ⟨b, hb, hbe.symm⟩
  have resolve : ∀ c h, c ∈ TYPABLE_CHARS.toList →
      (TenboardModifierConstrained.new_random flip hss1 hss2).try_type_char c
        = Except.ok h →
      (c = ' ' ∧ h = (thumbPair flip).1)
      ∨ (c = '\n' ∧ h = (thumbPair flip).2)
      ∨ (c ∈ ((LOWERCASE_CHARS.toList ++ DIGIT_CHARS.toList).take 36) ∧ assocGet (((LOWERCASE_CHARS.toList ++ DIGIT_CHARS.toList).take 36).zip hss1) c = some h)
      ∨ (charIsUppercase c = true
          ∧ ∃ v, assocGet (((LOWERCASE_CHARS.toList ++ DIGIT_CHARS.toList).take 36).zip hss1) (toAsciiLowercase c) = some v
            ∧ h = HandsState.combine v (thumbPair flip).1)
      ∨ (c ∈ (PUNCTUATION_CHARS.toList.filter (fun ch => ch ≠ ' ' && ch ≠ '\n')) ∧ assocGet ((PUNCTUATION_CHARS.toList.filter (fun ch => ch ≠ ' ' && ch ≠ '\n')).zip hss2) c = some h) := by
    intro c h hcm e
    rw [htry] at e
    rcases modifier_class c hcm with rfl | rfl | ⟨n1, n2, hcond, hmem⟩
      | ⟨n1, n2, hcond, hup, hmem⟩ | ⟨n1, n2, hcond, hup, hmem⟩
    · rw [if_pos rfl] at e
      exact Or.inl ⟨rfl, (Option.some.inj (okOr_eq_ok.mp e)).symm⟩
    · rw [if_neg (by decide : ¬ ('\n' = ' ')), if_pos rfl] at e
      exact Or.inr (Or.inl ⟨rfl, (Option.some.inj (okOr_eq_ok.mp e)).symm⟩)
    · rw [if_neg n1, if_neg n2, if_pos hcond, hget1] at e
      exact Or.inr (Or.inr (Or.inl ⟨hmem, okOr_eq_ok.mp e⟩))
    · rw [if_neg n1, if_neg n2, if_neg (by simp [hcond]), if_pos hup,
        hget1] at e
      have hm := okOr_eq_ok.mp e
      cases hv : assocGet (((LOWERCASE_CHARS.toList ++ DIGIT_CHARS.toList).take 36).zip hss1) (toAsciiLowercase c) with
      | none => rw [hv] at hm; cases hm
      | some v =>
        rw [hv] at hm
        simp only [Option.map_some', Option.some.injEq] at hm
        exact Or.inr (Or.inr (Or.inr (Or.inl ⟨hup, v, rfl, hm.symm⟩)))
    · rw [if_neg n1, if_neg n2, if_neg (by simp [hcond]),
        if_neg (by simp [hup]), hget2] at e
      exact Or.inr (Or.inr (Or.inr (Or.inr ⟨hmem, okOr_eq_ok.mp e⟩)))
  constructor
  · intro ch hch
    rcases modifier_class ch hch with rfl | rfl | ⟨n1, n2, hcond, hmem⟩
      | ⟨n1, n2, hcond, hup, hmem⟩ | ⟨n1, n2, hcond, hup, hmem⟩
    · exact ⟨(thumbPair flip).1, by rw [htry, if_pos rfl]; rfl⟩
    · exact ⟨(thumbPair flip).2,
        by rw [htry, if_neg (by decide : ¬ ('\n' = ' ')), if_pos rfl]; rfl⟩
    · obtain ⟨v, hv⟩ := assocGet_isSome (((LOWERCASE_CHARS.toList ++ DIGIT_CHARS.toList).take 36).zip hss1)
        (by rw [hkeys1]; exact hmem)
      exact ⟨v,
        by rw [htry, if_neg n1, if_neg n2, if_pos hcond, hget1, hv]; rfl⟩
    · obtain ⟨v, hv⟩ := assocGet_isSome (((LOWERCASE_CHARS.toList ++ DIGIT_CHARS.toList).take 36).zip hss1)
        (by rw [hkeys1]; exact hmem)
      exact ⟨HandsState.combine v (thumbPair flip).1,
        by rw [htry, if_neg n1, if_neg n2, if_neg (by simp [hcond]),
          if_pos hup, hget1, hv]; rfl⟩
    · obtain ⟨v, hv⟩ := assocGet_isSome ((PUNCTUATION_CHARS.toList.filter (fun ch => ch ≠ ' ' && ch ≠ '\n')).zip hss2)
        (by rw [hkeys2]; exact hmem)
      exact ⟨v, by rw [htry, if_neg n1, if_neg n2, if_neg (by simp [hcond]),
        if_neg (by simp [hup]), hget2, hv]; rfl⟩
  · intro c₁ hm1 c₂ hm2 hne h₁ h₂ e₁ e₂
    rcases resolve c₁ h₁ hm1 e₁ with ⟨hc1, rfl⟩ | ⟨hc1, rfl⟩ | ⟨hk1, ha1⟩
      | ⟨hu1, v₁, ha1, rfl⟩ | ⟨hk1, ha1⟩
    · rcases resolve c₂ h₂ hm2 e₂ with ⟨hc2, rfl⟩ | ⟨hc2, rfl⟩ | ⟨hk2, ha2⟩
        | ⟨hu2, v₂, ha2, rfl⟩ | ⟨hk2, ha2⟩
      · exact absurd (hc1.trans hc2.symm) hne
      · exact ne_of_sig_ne (w := wsPosition flip) (n := nlPosition flip)
          (by rw [sig_ws flip, sig_nl flip]; decide)
      · rcases sig_no_thumbs flip h₂ (hv1 ha2) with s | s <;>
          exact ne_of_sig_ne (by rw [sig_ws flip, s]; decide)
      · exact ne_of_sig_ne
          (by rw [sig_ws flip, sig_upper flip v₂ (hv1 ha2)]; decide)
      · obtain ⟨b, hb, rfl⟩ := hv2 ha2
        exact ne_of_sig_ne (by rw [sig_ws flip, sig_punct flip b hb]; decide)
    · rcases resolve c₂ h₂ hm2 e₂ with ⟨hc2, rfl⟩ | ⟨hc2, rfl⟩ | ⟨hk2, ha2⟩
        | ⟨hu2, v₂, ha2, rfl⟩ | ⟨hk2, ha2⟩
      · exact ne_of_sig_ne (w := wsPosition flip) (n := nlPosition flip)
          (by rw [sig_nl flip, sig_ws flip]; decide)
      · exact absurd (hc1.trans hc2.symm) hne
      · rcases sig_no_thumbs flip h₂ (hv1 ha2) with s | s <;>
          exact ne_of_sig_ne (by rw [sig_nl flip, s]; decide)
      · exact ne_of_sig_ne
          (by rw [sig_nl flip, sig_upper flip v₂ (hv1 ha2)]; decide)
      · obtain ⟨b, hb, rfl⟩ := hv2 ha2
        exact ne_of_sig_ne (by rw [sig_nl flip, sig_punct flip b hb]; decide)
    · rcases resolve c₂ h₂ hm2 e₂ with ⟨hc2, rfl⟩ | ⟨hc2, rfl⟩ | ⟨hk2, ha2⟩
        | ⟨hu2, v₂, ha2, rfl⟩ | ⟨hk2, ha2⟩
      · rcases sig_no_thumbs flip h₁ (hv1 ha1) with s | s <;>
          exact ne_of_sig_ne (by rw [s, sig_ws flip]; decide)
      · rcases sig_no_thumbs flip h₁ (hv1 ha1) with s | s <;>
          exact ne_of_sig_ne (by rw [s, sig_nl flip]; decide)
      · exact assocGet_zip_inj ld_keys_nodup hvnd1 hne ha1 ha2
      · rcases sig_no_thumbs flip h₁ (hv1 ha1) with s | s <;>
          exact ne_of_sig_ne
            (by rw [s, sig_upper flip v₂ (hv1 ha2)]; decide)
      · obtain ⟨b, hb, rfl⟩ := hv2 ha2
        rcases sig_no_thumbs flip h₁ (hv1 ha1) with s | s <;>
          exact ne_of_sig_ne (by rw [s, sig_punct flip b hb]; decide)
    · rcases resolve c₂ h₂ hm2 e₂ with ⟨hc2, rfl⟩ | ⟨hc2, rfl⟩ | ⟨hk2, ha2⟩
        | ⟨hu2, v₂, ha2, rfl⟩ | ⟨hk2, ha2⟩
      · exact ne_of_sig_ne
          (by rw [sig_upper flip v₁ (hv1 ha1), sig_ws flip]; decide)
      · exact ne_of_sig_ne
          (by rw [sig_upper flip v₁ (hv1 ha1), sig_nl flip]; decide)
      · rcases sig_no_thumbs flip h₂ (hv1 ha2) with s | s <;>
          exact ne_of_sig_ne
            (by rw [sig_upper flip v₁ (hv1 ha1), s]; decide)
      · have hll : toAsciiLowercase c₁ ≠ toAsciiLowercase c₂ :=
          fun hq => hne (upper_tolower_inj c₁ hm1 c₂ hm2 hu1 hu2 hq)
        have hvv : v₁ ≠ v₂ :=
          assocGet_zip_inj ld_keys_nodup hvnd1 hll ha1 ha2
        intro heq
        exact hvv (combine_ws_inj flip v₁ (hv1 ha1) v₂ (hv1 ha2) heq)
      · obtain ⟨b, hb, rfl⟩ := hv2 ha2
        exact ne_of_sig_ne
          (by rw [sig_upper flip v₁ (hv1 ha1), sig_punct flip b hb]; decide)
    · obtain ⟨b₁, hb1, hbe1⟩ := hv2 ha1
      rcases resolve c₂ h₂ hm2 e₂ with ⟨hc2, rfl⟩ | ⟨hc2, rfl⟩ | ⟨hk2, ha2⟩
        | ⟨hu2, v₂, ha2, rfl⟩ | ⟨hk2, ha2⟩
      · exact ne_of_sig_ne
          (by rw [show h₁ = HandsState.combine b₁ (thumbPair flip).2
              from hbe1, sig_punct flip b₁ hb1, sig_ws flip]; decide)
      · exact ne_of_sig_ne
          (by rw [show h₁ = HandsState.combine b₁ (thumbPair flip).2
              from hbe1, sig_punct flip b₁ hb1, sig_nl flip]; decide)
      · rcases sig_no_thumbs flip h₂ (hv1 ha2) with s | s <;>
          exact ne_of_sig_ne
            (by rw [show h₁ = HandsState.combine b₁ (thumbPair flip).2
                from hbe1, sig_punct flip b₁ hb1, s]; decide)
      · exact ne_of_sig_ne
          (by rw [show h₁ = HandsState.combine b₁ (thumbPair flip).2
              from hbe1, sig_punct flip b₁ hb1,
              sig_upper flip v₂ (hv1 ha2)]; decide)
      · exact assocGet_zip_inj punct_keys_nodup hvnd2 hne ha1 ha2

/-- C1: for each of the three random Tenboard layouts, under every
permutation the construction-time shuffle may produce and every outcome of
the thumb coin flip, the constructed character-to-chord mapping is total
over `TYPABLE_CHARS` (`try_type_char` returns `Ok` on every typable
character) and injective (distinct typable characters never share a
chord). -/
theorem random_layouts_total_injective :
    (∀ hss : List HandsState,
      hss.Perm HandsState.iterate_one_two_key_all_states →
      totalInjective (TenboardUnconstrained.new_random hss).try_type_char)
    ∧ (∀ (flip : Bool) (hss : List HandsState),
      hss.Perm HandsState.iterate_one_two_key_with_thumbs →
      totalInjective
        (TenboardThumbConstrained.new_random flip hss).try_type_char)
    ∧ (∀ (flip : Bool) (hss1 hss2 : List HandsState),
      hss1.Perm HandsState.iterate_one_two_key_no_thumbs →
      hss2.Perm (HandsState.iterate_one_two_key_no_thumbs.map
        (fun hs => HandsState.combine hs (thumbPair flip).2)) →
      totalInjective
        (TenboardModifierConstrained.new_random flip hss1 hss2).try_type_char) :=
  ⟨fun hss h => unconstrained_totalInjective hss h,
   fun flip hss h => thumb_constrained_totalInjective flip hss h,
   fun flip hss1 hss2 hp1 hp2 =>
     modifier_constrained_totalInjective flip hss1 hss2 hp1 hp2⟩

/-- Witness for C1: the three layouts built from the identity shuffle type
the letter `a`. -/
theorem random_layouts_total_injective_witness :
    (∃ hs, (TenboardUnconstrained.new_random
        HandsState.iterate_one_two_key_all_states).try_type_char 'a'
      = Except.ok hs)
    ∧ (∃ hs, (TenboardThumbConstrained.new_random true
        HandsState.iterate_one_two_key_with_thumbs).try_type_char 'a'
      = Except.ok hs)
    ∧ (∃ hs, (TenboardModifierConstrained.new_random true
        HandsState.iterate_one_two_key_no_thumbs (HandsState.iterate_one_two_key_no_thumbs.map
          (fun hs => HandsState.combine hs (thumbPair true).2))).try_type_char
        'a' = Except.ok hs) :=
  ⟨(random_layouts_total_injective.1 _ (List.Perm.refl _)).1 'a' (by decide),
   (random_layouts_total_injective.2.1 true _ (List.Perm.refl _)).1 'a'
     (by decide),
   (random_layouts_total_injective.2.2 true _ _ (List.Perm.refl _)
     (List.Perm.refl _)).1 'a' (by decide)⟩

theorem upper_char_facts : ∀ ch ∈ UPPERCASE_CHARS.toList,
    ch ≠ ' ' ∧ ch ≠ '\n'
    ∧ (charIsLowercase ch || charIsAsciiDigit ch) = false
    ∧ charIsUppercase ch = true
    ∧ toAsciiLowercase ch ≠ ' ' ∧ toAsciiLowercase ch ≠ '\n'
    ∧ (charIsLowercase (toAsciiLowercase ch)
        || charIsAsciiDigit (toAsciiLowercase ch)) = true := by
  decide

theorem punct_char_facts : ∀ ch ∈ (PUNCTUATION_CHARS.toList.filter (fun ch => ch ≠ ' ' && ch ≠ '\n')),
    ch ≠ ' ' ∧ ch ≠ '\n'
    ∧ (charIsLowercase ch || charIsAsciiDigit ch) = false
    ∧ charIsUppercase ch = false := by
  decide

/-- C6: for every constructed `TenboardModifierConstrained` layout, space
and newline type as the reserved whitespace and newline thumb chords; an
uppercase letter types as its lowercase counterpart's chord combined with
the whitespace thumb chord; and every chord returned for a punctuation
character presses the newline thumb's position (`nlPosition`: index 4 or 5
according to the coin flip). -/
theorem modifier_constrained_typing_rules (flip : Bool)
    (hss1 hss2 : List HandsState)
    (hp1 : hss1.Perm HandsState.iterate_one_two_key_no_thumbs)
    (hp2 : hss2.Perm (HandsState.iterate_one_two_key_no_thumbs.map
      (fun hs => HandsState.combine hs (thumbPair flip).2))) :
    ((TenboardModifierConstrained.new_random flip hss1 hss2).try_type_char ' '
        = Except.ok
          (TenboardModifierConstrained.new_random flip hss1 hss2).whitespace_hs)
    ∧ ((TenboardModifierConstrained.new_random flip hss1 hss2).try_type_char
          '\n'
        = Except.ok
          (TenboardModifierConstrained.new_random flip hss1 hss2).newline_hs)
    ∧ (∀ ch ∈ UPPERCASE_CHARS.toList, ∀ hs,
        (TenboardModifierConstrained.new_random flip hss1 hss2).try_type_char
            (toAsciiLowercase ch) = Except.ok hs →
        (TenboardModifierConstrained.new_random flip hss1 hss2).try_type_char
            ch
          = Except.ok (HandsState.combine hs
              (TenboardModifierConstrained.new_random flip
                hss1 hss2).whitespace_hs))
    ∧ (∀ ch ∈ (PUNCTUATION_CHARS.toList.filter (fun ch => ch ≠ ' ' && ch ≠ '\n')), ∀ hs,
        (TenboardModifierConstrained.new_random flip hss1 hss2).try_type_char
            ch = Except.ok hs →
        hs.getD (nlPosition flip) FingerState.Released
          = FingerState.Pressed) := by
  have hl1 : hss1.length = 36 := by rw [hp1.length_eq]; decide
  have hl2 : hss2.length = 36 := by
    rw [hp2.length_eq, List.length_map]; decide
  have hzip1 : (LOWERCASE_CHARS.toList ++ DIGIT_CHARS.toList).zip hss1
      = ((LOWERCASE_CHARS.toList ++ DIGIT_CHARS.toList).take 36).zip hss1 := by
    rw [zip_eq_zip_take (LOWERCASE_CHARS.toList ++ DIGIT_CHARS.toList) hss1,
      hl1]
  have htry : ∀ c,
      (TenboardModifierConstrained.new_random flip hss1 hss2).try_type_char c
        = okOr
            (if c = ' ' then some (thumbPair flip).1
             else if c = '\n' then some (thumbPair flip).2
             else if charIsLowercase c || charIsAsciiDigit c then
               hmGet (((LOWERCASE_CHARS.toList ++ DIGIT_CHARS.toList).take 36).zip hss1) c
             else if charIsUppercase c then
               Option.map
                 (fun hs => HandsState.combine hs (thumbPair flip).1)
                 (hmGet (((LOWERCASE_CHARS.toList ++ DIGIT_CHARS.toList).take 36).zip hss1) (toAsciiLowercase c))
             else hmGet ((PUNCTUATION_CHARS.toList.filter (fun ch => ch ≠ ' ' && ch ≠ '\n')).zip hss2) c)
            { ch := c } := by
    intro c
    have h0 :
        (TenboardModifierConstrained.new_random flip hss1 hss2).try_type_char c
          = okOr
              (if c = ' ' then some (thumbPair flip).1
               else if c = '\n' then some (thumbPair flip).2
               else if charIsLowercase c || charIsAsciiDigit c then
                 hmGet ((LOWERCASE_CHARS.toList ++ DIGIT_CHARS.toList).zip
                   hss1) c
               else if charIsUppercase c then
                 Option.map
                   (fun hs => HandsState.combine hs (thumbPair flip).1)
                   (hmGet ((LOWERCASE_CHARS.toList ++ DIGIT_CHARS.toList).zip
                     hss1) (toAsciiLowercase c))
               else hmGet ((PUNCTUATION_CHARS.toList.filter (fun ch => ch ≠ ' ' && ch ≠ '\n')).zip hss2) c)
              { ch := c } := rfl
    rw [h0, hzip1]
  have hkeys2 : ((PUNCTUATION_CHARS.toList.filter (fun ch => ch ≠ ' ' && ch ≠ '\n')).zip hss2).map Prod.fst = (PUNCTUATION_CHARS.toList.filter (fun ch => ch ≠ ' ' && ch ≠ '\n')) :=
    List.map_fst_zip _ _ (by rw [hl2]; decide)
  have hget2 : ∀ c, hmGet ((PUNCTUATION_CHARS.toList.filter (fun ch => ch ≠ ' ' && ch ≠ '\n')).zip hss2) c = assocGet ((PUNCTUATION_CHARS.toList.filter (fun ch => ch ≠ ' ' && ch ≠ '\n')).zip hss2) c :=
    fun c => hmGet_eq_assocGet (by rw [hkeys2]; exact punct_keys_nodup) c
  refine ⟨rfl, rfl, ?_, ?_⟩
  · intro ch hch hs e
    obtain ⟨n1, n2, hcond, hup, nl1, nl2, hlow⟩ := upper_char_facts ch hch
    rw [htry, if_neg nl1, if_neg nl2, if_pos hlow] at e
    rw [htry, if_neg n1, if_neg n2, if_neg (by simp [hcond]), if_pos hup,
      okOr_eq_ok.mp e]
    rfl
  · intro ch hch hs e
    obtain ⟨n1, n2, hcond, hup⟩ := punct_char_facts ch hch
    rw [htry, if_neg n1, if_neg n2, if_neg (by simp [hcond]),
      if_neg (by simp [hup]), hget2] at e
    have ha := okOr_eq_ok.mp e
    obtain ⟨b, hb, hbe⟩ := List.mem_map.mp
      (hp2.mem_iff.mp (assocGet_zip_val_mem ha))
    rw [← hbe]
    exact combine_nl_pressed flip b hb

/-- Witness for C6 at the identity shuffle with `flip = true`: space types
as the whitespace thumb and `A` as the chord of `a` with the whitespace
thumb combined. -/
theorem modifier_constrained_typing_rules_witness :
    ((TenboardModifierConstrained.new_random true
        HandsState.iterate_one_two_key_no_thumbs (HandsState.iterate_one_two_key_no_thumbs.map
          (fun hs => HandsState.combine hs (thumbPair true).2))).try_type_char
        ' '
      = Except.ok (TenboardModifierConstrained.new_random true
          HandsState.iterate_one_two_key_no_thumbs (HandsState.iterate_one_two_key_no_thumbs.map
            (fun hs => HandsState.combine hs (thumbPair true).2))).whitespace_hs)
    ∧ ((TenboardModifierConstrained.new_random true
        HandsState.iterate_one_two_key_no_thumbs (HandsState.iterate_one_two_key_no_thumbs.map
          (fun hs => HandsState.combine hs (thumbPair true).2))).try_type_char
        'A'
      = Except.ok (HandsState.combine
          (HandsState.fromI32 [1, 0, 0, 0, 0, 0, 0, 0, 0, 0])
          (TenboardModifierConstrained.new_random true
            HandsState.iterate_one_two_key_no_thumbs (HandsState.iterate_one_two_key_no_thumbs.map
              (fun hs => HandsState.combine hs
                (thumbPair true).2))).whitespace_hs)) :=
  ⟨(modifier_constrained_typing_rules true _ _ (List.Perm.refl _)
      (List.Perm.refl _)).1,
   (modifier_constrained_typing_rules true _ _ (List.Perm.refl _)
      (List.Perm.refl _)).2.2.1 'A' (by decide)
      (HandsState.fromI32 [1, 0, 0, 0, 0, 0, 0, 0, 0, 0]) (by rfl)⟩
